import Mathlib

/-!
# Naive matrix multiplication benchmark (`matmul.cpp`)

A shallow embedding of `main` of `matmul.cpp`: the reference triple loop, the
random workload, the host/device pipeline, the reporting and the `catch`
handlers, followed by the properties proved about them.

Conventions of the embedding

* A `std::vector<double>` is a `List` of scalars.  A finite `double` is the
  rational number it denotes.  The reference loop is stated over an arbitrary
  semiring `R` with exact arithmetic, as the specification takes it; the
  arithmetic of the generator, of the elapsed times and of the reported
  quotient is binary64: the exact operation followed by `roundDouble`.
* `v[i]` is the total read `List.getD v i 0` and `v[i] = x` the total write
  `List.set v i x`; both have an out-of-range branch, which the index-safety
  theorem shows is never taken.
* `constexpr int size = 512` is the parameter `size`; the program is
  `main env 512`.
* Every element write to one of the four host vectors is recorded in the
  ghost log `Host.writes`; every call of the OpenCL API and of the clock is
  recorded in the ghost log `State.trace`.
* The calls made inside a `catch` handler (`getInfo<CL_DEVICE_NAME>`, the
  insertions into `std::cerr`) are taken to complete, and `std::exit(c)` to
  end the process with status `c`.
* Everything the program obtains from outside (which library call throws,
  whether the kernel file opens, the words of the random engine, the clock,
  the device kernel, the value of `EXIT_FAILURE`) is a field of `Env`.
-/

namespace Matmul

/-! ## The host vectors and the reference loop (lines 40, 58–70) -/

/-- Names of the four host vectors declared at line 40. -/
inductive Mat where
  | A
  | B
  | result_cpu
  | result_gpu
  deriving DecidableEq

/-- Host memory: the four vectors of line 40 and the ghost log of the
element writes performed on them, oldest first. -/
structure Host (R : Type) where
  A : List R
  B : List R
  result_cpu : List R
  result_gpu : List R
  writes : List (Mat × Nat)

/-- The element write `m[p] = x`, logged. -/
def Host.store {R : Type} (h : Host R) (m : Mat) (p : Nat) (x : R) : Host R :=
  match m with
  | Mat.A => { h with A := h.A.set p x, writes := h.writes ++ [(Mat.A, p)] }
  | Mat.B => { h with B := h.B.set p x, writes := h.writes ++ [(Mat.B, p)] }
  | Mat.result_cpu =>
    { h with result_cpu := h.result_cpu.set p x, writes := h.writes ++ [(Mat.result_cpu, p)] }
  | Mat.result_gpu =>
    { h with result_gpu := h.result_gpu.set p x, writes := h.writes ++ [(Mat.result_gpu, p)] }

/-- The vector named `m`. -/
def Host.vec {R : Type} (h : Host R) (m : Mat) : List R :=
  match m with
  | Mat.A => h.A
  | Mat.B => h.B
  | Mat.result_cpu => h.result_cpu
  | Mat.result_gpu => h.result_gpu

/-- The loop `for (int i = 0; i < n; ++i) body` run on the state `s`. -/
def forLoop {σ : Type} (n : Nat) (body : Nat → σ → σ) (s : σ) : σ :=
  (List.range n).foldl (fun st i => body i st) s

/-- Lines 63–67: `auto acc = 0.0; for k: acc += A[i*size+k] * B[k*size+j];`. -/
def accumulate {R : Type} [Semiring R] (size : Nat) (h : Host R) (i j : Nat) : R :=
  forLoop size (fun k acc => acc + h.A.getD (i * size + k) 0 * h.B.getD (k * size + j) 0) 0

/-- Lines 63–68: the body of the `j` loop, ending with
`result_cpu[i*size+j] = acc;`. -/
def naiveBody {R : Type} [Semiring R] (size i j : Nat) (h : Host R) : Host R :=
  h.store Mat.result_cpu (i * size + j) (accumulate size h i j)

/-- Lines 61–69: the `j` loop of row `i`. -/
def naiveRow {R : Type} [Semiring R] (size i : Nat) (h : Host R) : Host R :=
  forLoop size (fun j st => naiveBody size i j st) h

/-- Lines 59–70: the naive implementation, outer `i`, middle `j`, inner `k`. -/
def naive {R : Type} [Semiring R] (size : Nat) (h : Host R) : Host R :=
  forLoop size (fun i st => naiveRow size i st) h

/-- The row-major `N×N` identity matrix, the input `A` of scenario 1. -/
def identityMatrix (R : Type) [Semiring R] (N : Nat) : List R :=
  (List.range (N * N)).map (fun p => if p / N = p % N then 1 else 0)

/-- Scenario 1 of the specification: `N = 2`, `A` the identity,
`B = [[5,6],[7,8]]`, results zeroed. -/
def scenario1 : Host ℚ :=
  { A := [1, 0, 0, 1], B := [5, 6, 7, 8], result_cpu := [0, 0, 0, 0],
    result_gpu := [0, 0, 0, 0], writes := [] }

/-- A `2×2` integer workload: `A = [[1,2],[3,4]]`, `B = [[5,6],[7,8]]`. -/
def sample2 : Host Int :=
  { A := [1, 2, 3, 4], B := [5, 6, 7, 8], result_cpu := [0, 0, 0, 0],
    result_gpu := [0, 0, 0, 0], writes := [] }

/-! ## 32-bit index arithmetic -/

/-- Value of a mathematical integer stored in a 32-bit two's-complement
`int`. -/
def wrapInt32 (x : Int) : Int := (x + 2 ^ 31) % 2 ^ 32 - 2 ^ 31

/-- The `int` expression `r*size+c` of lines 66 and 68, every operation
reduced to 32 bits. -/
def flatIndex32 (r size c : Int) : Int := wrapInt32 (wrapInt32 (r * size) + c)

/-- Checked element access: `none` is the out-of-range branch. -/
def readAt {R : Type} (v : List R) (ix : Int) : Option R :=
  if 0 ≤ ix then v[ix.toNat]? else none

/-! ## Double-precision arithmetic -/

/-- Rounding to the nearest integer, a tie going to the even one. -/
def roundHalfEven (x : ℚ) : Int :=
  if Int.fract x < 1 / 2 then ⌊x⌋
  else if 1 / 2 < Int.fract x then ⌊x⌋ + 1
  else if ⌊x⌋ % 2 = 0 then ⌊x⌋ else ⌊x⌋ + 1

/-- The exponent of the unit in the last place of the binary64 numbers
around `x`: `⌊log₂|x|⌋ - 52`, and `-1074` in the subnormal range. -/
def ulpExponent (x : ℚ) : Int := max (Int.log 2 |x|) (-1022) - 52

/-- The binary64 number nearest to `x`, a tie going to the even significand
(IEEE 754 roundTiesToEven, the default rounding direction).  Overflow to
infinity is not represented: the values of the program stay below `2¹⁰²⁴`. -/
def roundDouble (x : ℚ) : ℚ := (roundHalfEven (x / 2 ^ ulpExponent x) : ℚ) * 2 ^ ulpExponent x

/-- The `double` sum `a + b`. -/
def fadd (a b : ℚ) : ℚ := roundDouble (a + b)

/-- The `double` difference `a - b`. -/
def fsub (a b : ℚ) : ℚ := roundDouble (a - b)

/-- The `double` product `a * b`. -/
def fmul (a b : ℚ) : ℚ := roundDouble (a * b)

/-- The `double` quotient `a / b` for `b ≠ 0`; a zero divisor, whose quotient
is an infinity or a NaN, is outside what the value represents. -/
def fdiv (a b : ℚ) : ℚ := roundDouble (a / b)

/-! ## The random workload (lines 43–53)

`std::mt19937` is abstracted as the sequence `draws` of the words it returns.
`std::generate_canonical` and `std::uniform_real_distribution` are library
code, embedded as libstdc++ computes them, in `double`. -/

/-- The `n`-th invocation of `mersenne_engine()`: a 32-bit word. -/
def engineWord (draws : Nat → Nat) (n : Nat) : Nat := draws n % 2 ^ 32

/-- `std::generate_canonical<double, 53>` on a 32-bit engine: two rounds of
`sum += double(word) * tmp; tmp *= 2³²` starting at engine position `pos`,
then `sum / tmp`, a result `≥ 1` being replaced by the `double` just below
`1`. -/
def generate_canonical (draws : Nat → Nat) (pos : Nat) : ℚ :=
  let acc := forLoop 2
    (fun k (st : ℚ × ℚ) =>
      (fadd st.1 (fmul (roundDouble (engineWord draws (pos + k))) st.2), fmul st.2 (2 ^ 32)))
    (0, 1)
  let ret := fdiv acc.1 acc.2
  if 1 ≤ ret then 1 - 1 / 2 ^ 53 else ret

/-- One call `dist(mersenne_engine)` of a
`std::uniform_real_distribution<double> dist(a, b)`:
`generate_canonical * (b - a) + a` in `double`. -/
def dist (a b : ℚ) (draws : Nat → Nat) (pos : Nat) : ℚ :=
  fadd (fmul (generate_canonical draws pos) (fsub b a)) a

/-- Lines 45–46: `gen = [&]() { return dist(mersenne_engine); }` with
`dist(-1.0, 1.0)`; a call consumes two engine words. -/
def gen (draws : Nat → Nat) (pos : Nat) : ℚ := dist (-1) 1 draws pos

/-- Lines 49–50: `std::generate(m.begin(), m.end(), gen)`; the second
component is the engine position. -/
def generate (draws : Nat → Nat) (m : Mat) (st : Host ℚ × Nat) : Host ℚ × Nat :=
  forLoop (st.1.vec m).length
    (fun p s => (s.1.store m p (gen draws s.2), s.2 + 2)) st

/-- Lines 52–53: `std::fill(m.begin(), m.end(), 0.0f)`. -/
def fill (m : Mat) (h : Host ℚ) : Host ℚ :=
  forLoop (h.vec m).length (fun p s => s.store m p 0) h

/-! ## Clock and reporting (lines 72, 102, 108–110) -/

/-- The names of the four clock samples. -/
inductive Sample where
  | time_cpu0
  | time_cpu1
  | time_gpu0
  | time_gpu1
  deriving DecidableEq

/-- `std::chrono::duration_cast<std::chrono::microseconds>(d).count()` for a
clock whose tick lasts `periodNs` nanoseconds: truncation toward zero. -/
def duration_cast_us (periodNs : Nat) (d : Int) : Int := Int.tdiv (d * periodNs) 1000

/-- Lines 72 and 102: `duration_cast<microseconds>(t1 - t0).count() / 1000.0`:
the count converted to `double` and divided by `1000.0` in `double`. -/
def time_difference (periodNs : Nat) (t0 t1 : Int) : ℚ :=
  fdiv (roundDouble (duration_cast_us periodNs (t1 - t0))) 1000

/-- The integer written by `<< std::fixed << std::setprecision(0) << x`: the
conversion of `%.0f`, which rounds the value of the `double` to the nearest
integer and a tie to the even one. -/
def fixed0 (x : ℚ) : Int := roundHalfEven x

/-- The `double` quotient `time_difference_cpu/time_difference_gpu` of line
110 for elapsed times of `cpu_us` and `gpu_us` whole microseconds. -/
def speedupQuotient (cpu_us gpu_us : Int) : ℚ :=
  fdiv (fdiv (roundDouble cpu_us) 1000) (fdiv (roundDouble gpu_us) 1000)

/-- The number shown by line 110: the quotient under
`std::fixed << std::setprecision(0)`. -/
def speedupShown (cpu_us gpu_us : Int) : Int := fixed0 (speedupQuotient cpu_us gpu_us)

/-- The three lines written to `std::cout`. -/
inductive OutLine where
  | cpuTime (size : Nat) (ms : ℚ)
  | gpuTime (size : Nat) (ms : ℚ)
  | speedup (shown : Int)
  deriving DecidableEq

/-! ## Exceptions and the `catch` handlers (lines 115–140) -/

/-- The classes of the exceptions the body of `main` can raise. -/
inductive ExnClass where
  | BuildError
  | Error
  | runtime_error
  | bad_alloc
  | exception
  deriving DecidableEq

/-- A class followed by its public bases: `cl::BuildError : cl::Error :
std::exception`, `std::runtime_error : std::exception`,
`std::bad_alloc : std::exception`. -/
def ExnClass.bases : ExnClass → List ExnClass
  | ExnClass.BuildError => [ExnClass.BuildError, ExnClass.Error, ExnClass.exception]
  | ExnClass.Error => [ExnClass.Error, ExnClass.exception]
  | ExnClass.runtime_error => [ExnClass.runtime_error, ExnClass.exception]
  | ExnClass.bad_alloc => [ExnClass.bad_alloc, ExnClass.exception]
  | ExnClass.exception => [ExnClass.exception]

/-- A thrown exception: its dynamic class, `what()`, `err()` and
`getBuildLog()` (the last two meaningful for the OpenCL classes). -/
structure Exn where
  cls : ExnClass
  what : String
  err : Int
  buildLog : List (String × String)
  deriving DecidableEq

/-- What a handler does: the lines it writes to `std::cerr` and the argument
of its `std::exit`. -/
structure Exit where
  cerr : List String
  code : Int
  deriving DecidableEq

/-- A `catch (C& error)` clause. -/
structure Handler where
  catches : ExnClass
  body : Exn → Exit

/-- Lines 115–140: the three handlers, in source order. -/
def handlers (EXIT_FAILURE : Int) : List Handler :=
  [ { catches := ExnClass.BuildError
      body := fun error =>
        { cerr := (error.what ++ "(" ++ toString error.err ++ ")") ::
            error.buildLog.map (fun log => "\tBuild log for device: " ++ log.1 ++ "\n\n" ++ log.2 ++ "\n\n")
          code := error.err } },
    { catches := ExnClass.Error
      body := fun error =>
        { cerr := [error.what ++ "(" ++ toString error.err ++ ")"]
          code := error.err } },
    { catches := ExnClass.exception
      body := fun error =>
        { cerr := [error.what]
          code := EXIT_FAILURE } } ]

/-- The first handler whose class is the class of the exception or one of
its bases runs; `none` when there is none. -/
def catchExn (hs : List Handler) (e : Exn) : Option Exit :=
  (hs.find? (fun h => e.cls.bases.contains h.catches)).map (fun h => h.body e)

/-! ## The statements of the `try` block (lines 18–110) -/

/-- The three device buffers of lines 78–80. -/
inductive Buf where
  | buf_A
  | buf_B
  | buf_result_gpu
  deriving DecidableEq

/-- Calls of the OpenCL API and of the clock, as recorded in the trace. -/
inductive Event where
  | getDefaultQueue
  | getDevice
  | openSource
  | createProgram
  | build
  | bindKernel (name : String)
  | now (s : Sample)
  | createBuffer (b : Buf) (len : Nat) (readOnly : Bool)
  | copyToDevice (m : Mat) (b : Buf) (data : List ℚ)
  | launch (kernel : String) (globalSize : Nat) (args : List Buf) (n : Int)
  | finish
  | copyToHost (b : Buf) (m : Mat)
  deriving DecidableEq

/-- The statements of the `try` block. -/
inductive Stmt where
  | getDefaultQueue   -- line 21
  | getDevice         -- line 22
  | openSource        -- lines 25–27
  | createProgram     -- line 30
  | build             -- line 31
  | bindKernel        -- line 34
  | allocVectors      -- line 40
  | seedEngine        -- lines 43–44
  | generateA         -- line 49
  | generateB         -- line 50
  | fillResultCpu     -- line 52
  | fillResultGpu     -- line 53
  | sampleCpu0        -- line 58
  | naiveLoop         -- lines 59–70
  | sampleCpu1        -- line 71
  | diffCpu           -- line 72
  | createBufA        -- line 78
  | createBufB        -- line 79
  | createBufResult   -- line 80
  | sampleGpu0        -- line 83
  | copyInA           -- line 86
  | copyInB           -- line 87
  | copyInResult      -- line 88
  | launch            -- line 91
  | finish            -- line 93
  | copyOutA          -- line 96
  | copyOutB          -- line 97
  | copyOutResult     -- line 98
  | sampleGpu1        -- line 101
  | diffGpu           -- line 102
  | printCpu          -- line 108
  | printGpu          -- line 109
  | printSpeedup      -- line 110
  deriving DecidableEq

/-- Device/queue acquisition and kernel preparation, lines 21–34. -/
def sessionStage : List Stmt :=
  [Stmt.getDefaultQueue, Stmt.getDevice, Stmt.openSource, Stmt.createProgram, Stmt.build,
   Stmt.bindKernel]

/-- The workload generator, lines 40–53. -/
def generatorStage : List Stmt :=
  [Stmt.allocVectors, Stmt.seedEngine, Stmt.generateA, Stmt.generateB, Stmt.fillResultCpu,
   Stmt.fillResultGpu]

/-- The timed reference computation, lines 58–72. -/
def referenceStage : List Stmt :=
  [Stmt.sampleCpu0, Stmt.naiveLoop, Stmt.sampleCpu1, Stmt.diffCpu]

/-- The accelerator stage, lines 78–102. -/
def acceleratorStage : List Stmt :=
  [Stmt.createBufA, Stmt.createBufB, Stmt.createBufResult, Stmt.sampleGpu0, Stmt.copyInA,
   Stmt.copyInB, Stmt.copyInResult, Stmt.launch, Stmt.finish, Stmt.copyOutA, Stmt.copyOutB,
   Stmt.copyOutResult, Stmt.sampleGpu1, Stmt.diffGpu]

/-- The report, lines 108–110. -/
def reportStage : List Stmt := [Stmt.printCpu, Stmt.printGpu, Stmt.printSpeedup]

/-- The `try` block, in source order. -/
def mainBody : List Stmt :=
  sessionStage ++ generatorStage ++ referenceStage ++ acceleratorStage ++ reportStage

/-- The statements that call into a library that can throw. -/
def Stmt.fallible : Stmt → Bool
  | Stmt.getDefaultQueue | Stmt.getDevice | Stmt.createProgram | Stmt.build | Stmt.bindKernel
  | Stmt.allocVectors | Stmt.seedEngine
  | Stmt.createBufA | Stmt.createBufB | Stmt.createBufResult
  | Stmt.copyInA | Stmt.copyInB | Stmt.copyInResult | Stmt.launch | Stmt.finish
  | Stmt.copyOutA | Stmt.copyOutB | Stmt.copyOutResult => true
  | _ => false

/-- Everything a run obtains from outside the program. -/
structure Env where
  /-- The exception a fallible statement raises, if it does. -/
  fails : Stmt → Option Exn
  /-- Whether `source_file.is_open()` holds at line 26. -/
  sourceOpens : Bool
  /-- The words returned by the successive calls of `mersenne_engine()`. -/
  draws : Nat → Nat
  /-- The tick count returned by the `k`-th call of
  `high_resolution_clock::now()`. -/
  clock : Nat → Int
  /-- Nanoseconds per tick of `high_resolution_clock`. -/
  periodNs : Nat
  /-- The device kernel of `matmul.cl`: from the contents of the three buffers
  and `N`, the new contents of the result buffer (the buffers of `A` and `B`
  are created read-only). -/
  kernel : List ℚ → List ℚ → List ℚ → Int → List ℚ
  /-- The value of `EXIT_FAILURE` from `<cstdlib>`. -/
  EXIT_FAILURE : Int

/-- Program state inside the `try` block. -/
structure State where
  host : Host ℚ
  /-- Engine words consumed so far. -/
  drawn : Nat
  buf_A : List ℚ
  buf_B : List ℚ
  buf_result_gpu : List ℚ
  /-- Clock samples taken so far. -/
  samples : Nat
  time_cpu0 : Int
  time_cpu1 : Int
  time_gpu0 : Int
  time_gpu1 : Int
  time_difference_cpu : ℚ
  time_difference_gpu : ℚ
  trace : List Event
  cout : List OutLine

/-- State on entry to `main`. -/
def State.init : State :=
  { host := { A := [], B := [], result_cpu := [], result_gpu := [], writes := [] }
    drawn := 0
    buf_A := []
    buf_B := []
    buf_result_gpu := []
    samples := 0
    time_cpu0 := 0
    time_cpu1 := 0
    time_gpu0 := 0
    time_gpu1 := 0
    time_difference_cpu := 0
    time_difference_gpu := 0
    trace := []
    cout := [] }

/-- The exception raised by a statement, if any: line 27 throws the
`runtime_error` when the file is not open, a fallible library call throws
what the environment says. -/
def raises (env : Env) (st : Stmt) : Option Exn :=
  match st with
  | Stmt.openSource =>
    if env.sourceOpens then none
    else some { cls := ExnClass.runtime_error
                what := "Cannot open kernel source: " ++ "matmul.cl"
                err := 0
                buildLog := [] }
  | _ => if st.fallible then env.fails st else none

/-- `cl::copy(queue, begin, end, buffer)`: the host range overwrites the
start of the buffer. -/
def copyIn (host buf : List ℚ) : List ℚ := host ++ buf.drop host.length

/-- `cl::copy(queue, buffer, m.begin(), m.end())`: every element of the host
vector `m` is overwritten with the buffer's. -/
def copyOut (buf : List ℚ) (m : Mat) (h : Host ℚ) : Host ℚ :=
  forLoop (h.vec m).length (fun p s => s.store m p (buf.getD p 0)) h

/-- The effect of a statement that completes. -/
def effect (env : Env) (size : Nat) (st : Stmt) (s : State) : State :=
  match st with
  | Stmt.getDefaultQueue => { s with trace := s.trace ++ [Event.getDefaultQueue] }
  | Stmt.getDevice => { s with trace := s.trace ++ [Event.getDevice] }
  | Stmt.openSource => { s with trace := s.trace ++ [Event.openSource] }
  | Stmt.createProgram => { s with trace := s.trace ++ [Event.createProgram] }
  | Stmt.build => { s with trace := s.trace ++ [Event.build] }
  | Stmt.bindKernel => { s with trace := s.trace ++ [Event.bindKernel "matmul"] }
  | Stmt.allocVectors =>
    { s with host := { s.host with
        A := List.replicate (size * size) 0
        B := List.replicate (size * size) 0
        result_cpu := List.replicate (size * size) 0
        result_gpu := List.replicate (size * size) 0 } }
  | Stmt.seedEngine => { s with drawn := 0 }
  | Stmt.generateA =>
    { s with host := (generate env.draws Mat.A (s.host, s.drawn)).1
             drawn := (generate env.draws Mat.A (s.host, s.drawn)).2 }
  | Stmt.generateB =>
    { s with host := (generate env.draws Mat.B (s.host, s.drawn)).1
             drawn := (generate env.draws Mat.B (s.host, s.drawn)).2 }
  | Stmt.fillResultCpu => { s with host := fill Mat.result_cpu s.host }
  | Stmt.fillResultGpu => { s with host := fill Mat.result_gpu s.host }
  | Stmt.sampleCpu0 =>
    { s with time_cpu0 := env.clock s.samples
             samples := s.samples + 1
             trace := s.trace ++ [Event.now Sample.time_cpu0] }
  | Stmt.naiveLoop => { s with host := naive size s.host }
  | Stmt.sampleCpu1 =>
    { s with time_cpu1 := env.clock s.samples
             samples := s.samples + 1
             trace := s.trace ++ [Event.now Sample.time_cpu1] }
  | Stmt.diffCpu =>
    { s with time_difference_cpu := time_difference env.periodNs s.time_cpu0 s.time_cpu1 }
  | Stmt.createBufA =>
    { s with buf_A := s.host.A
             trace := s.trace ++ [Event.createBuffer Buf.buf_A s.host.A.length true] }
  | Stmt.createBufB =>
    { s with buf_B := s.host.B
             trace := s.trace ++ [Event.createBuffer Buf.buf_B s.host.B.length true] }
  | Stmt.createBufResult =>
    { s with buf_result_gpu := s.host.result_gpu
             trace := s.trace ++
               [Event.createBuffer Buf.buf_result_gpu s.host.result_gpu.length false] }
  | Stmt.sampleGpu0 =>
    { s with time_gpu0 := env.clock s.samples
             samples := s.samples + 1
             trace := s.trace ++ [Event.now Sample.time_gpu0] }
  | Stmt.copyInA =>
    { s with buf_A := copyIn s.host.A s.buf_A
             trace := s.trace ++ [Event.copyToDevice Mat.A Buf.buf_A s.host.A] }
  | Stmt.copyInB =>
    { s with buf_B := copyIn s.host.B s.buf_B
             trace := s.trace ++ [Event.copyToDevice Mat.B Buf.buf_B s.host.B] }
  | Stmt.copyInResult =>
    { s with buf_result_gpu := copyIn s.host.result_gpu s.buf_result_gpu
             trace := s.trace ++
               [Event.copyToDevice Mat.result_gpu Buf.buf_result_gpu s.host.result_gpu] }
  | Stmt.launch =>
    { s with buf_result_gpu := env.kernel s.buf_A s.buf_B s.buf_result_gpu size
             trace := s.trace ++
               [Event.launch "matmul" (size * size) [Buf.buf_A, Buf.buf_B, Buf.buf_result_gpu]
                  size] }
  | Stmt.finish => { s with trace := s.trace ++ [Event.finish] }
  | Stmt.copyOutA =>
    { s with host := copyOut s.buf_A Mat.A s.host
             trace := s.trace ++ [Event.copyToHost Buf.buf_A Mat.A] }
  | Stmt.copyOutB =>
    { s with host := copyOut s.buf_B Mat.B s.host
             trace := s.trace ++ [Event.copyToHost Buf.buf_B Mat.B] }
  | Stmt.copyOutResult =>
    { s with host := copyOut s.buf_result_gpu Mat.result_gpu s.host
             trace := s.trace ++ [Event.copyToHost Buf.buf_result_gpu Mat.result_gpu] }
  | Stmt.sampleGpu1 =>
    { s with time_gpu1 := env.clock s.samples
             samples := s.samples + 1
             trace := s.trace ++ [Event.now Sample.time_gpu1] }
  | Stmt.diffGpu =>
    { s with time_difference_gpu := time_difference env.periodNs s.time_gpu0 s.time_gpu1 }
  | Stmt.printCpu =>
    { s with cout := s.cout ++ [OutLine.cpuTime size s.time_difference_cpu] }
  | Stmt.printGpu =>
    { s with cout := s.cout ++ [OutLine.gpuTime size s.time_difference_gpu] }
  | Stmt.printSpeedup =>
    { s with cout := s.cout ++
        [OutLine.speedup (fixed0 (fdiv s.time_difference_cpu s.time_difference_gpu))] }

/-- Sequential execution: the statements run in order until one raises; the
result is the state reached and the exception in flight, if any. -/
def runStmts (env : Env) (size : Nat) : List Stmt → State → State × Option Exn
  | [], s => (s, none)
  | st :: rest, s =>
    match raises env st with
    | some e => (s, some e)
    | none => runStmts env size rest (effect env size st s)

/-- What a run of the process leaves behind. -/
structure Outcome where
  /-- The exit status; `none` when an exception escapes every handler. -/
  exitCode : Option Int
  cout : List OutLine
  cerr : List String
  /-- The program state when the `try` block was left. -/
  final : State
  /-- The exception that ended the `try` block, if any. -/
  raised : Option Exn

/-- The function `main`: the `try` block, then either the implicit
`return 0` or the matching handler. -/
def main (env : Env) (size : Nat) : Outcome :=
  match runStmts env size mainBody State.init with
  | (s, none) => { exitCode := some 0, cout := s.cout, cerr := [], final := s, raised := none }
  | (s, some e) =>
    match catchExn (handlers env.EXIT_FAILURE) e with
    | some x =>
      { exitCode := some x.code, cout := s.cout, cerr := x.cerr, final := s, raised := some e }
    | none => { exitCode := none, cout := s.cout, cerr := [], final := s, raised := some e }

/-- The trace restricted to the operations issued to the device. -/
def deviceOps (t : List Event) : List Event :=
  t.filter (fun e =>
    match e with
    | Event.createBuffer _ _ _ | Event.copyToDevice _ _ _ | Event.launch _ _ _ _
    | Event.finish | Event.copyToHost _ _ => true
    | _ => false)

/-- An environment in which nothing fails: the engine returns the words
`0, 1, 2, …`, the clock advances by 1000 ticks of 1000 ns per sample and
the kernel leaves the result buffer as it is. -/
def Env.quiet : Env :=
  { fails := fun _ => none
    sourceOpens := true
    draws := fun n => n
    clock := fun k => 1000 * k
    periodNs := 1000
    kernel := fun _ _ r _ => r
    EXIT_FAILURE := 1 }

/-- A run in which `program.build` (line 31) raises a `cl::BuildError`. -/
def Env.buildFails : Env :=
  { Env.quiet with
    fails := fun st =>
      if st = Stmt.build then
        some { cls := ExnClass.BuildError, what := "clBuildProgram", err := -11,
               buildLog := [("GPU", "error: expected expression")] }
      else none }

/-- A run in which `cl::finish()` (line 93) raises a `cl::Error`. -/
def Env.finishFails : Env :=
  { Env.quiet with
    fails := fun st =>
      if st = Stmt.finish then
        some { cls := ExnClass.Error, what := "clFinish", err := -36, buildLog := [] }
      else none }

/-- A run in which the vectors of line 40 cannot be allocated. -/
def Env.allocFails : Env :=
  { Env.quiet with
    fails := fun st =>
      if st = Stmt.allocVectors then
        some { cls := ExnClass.bad_alloc, what := "std::bad_alloc", err := 0, buildLog := [] }
      else none }

/-- A run in which the kernel source file cannot be opened. -/
def Env.noSource : Env := { Env.quiet with sourceOpens := false }

/-- Closed form of what line 49 leaves in `A`: element `p` is the value of
the `p`-th call of `gen`, made at engine position `2p`. -/
def workloadA (draws : Nat → Nat) (size : Nat) : List ℚ :=
  (List.range (size * size)).map (fun p => gen draws (0 + 2 * p))

/-- Closed form of what line 50 leaves in `B`: the calls of `gen` continue
at engine position `2·size²`. -/
def workloadB (draws : Nat → Nat) (size : Nat) : List ℚ :=
  (List.range (size * size)).map (fun p => gen draws (0 + 2 * (size * size) + 2 * p))

/-- The ghost entries of one write to each of the first `n` elements of `m`,
in index order. -/
def writesAll (m : Mat) (n : Nat) : List (Mat × Nat) := (List.range n).map (fun p => (m, p))

/-- A run whose reference loop takes 2500 µs and whose accelerator window
takes 1000 µs. -/
def Env.halfway : Env :=
  { Env.quiet with
    clock := fun k =>
      match k with
      | 0 => 0
      | 1 => 2500
      | 2 => 3000
      | _ => 4000 }

/-- Zeroed `1×1` host vectors. -/
def oneCell : Host ℚ :=
  { A := [0], B := [0], result_cpu := [0], result_gpu := [0], writes := [] }

/-- A state whose host vectors are the zeroed `1×1` ones. -/
def State.oneCell : State := { State.init with host := Matmul.oneCell }

/-- A run whose reference loop takes 43 µs and whose accelerator window
takes 2 µs. -/
def Env.inexact : Env :=
  { Env.quiet with
    clock := fun k =>
      match k with
      | 0 => 0
      | 1 => 43
      | 2 => 50
      | _ => 52 }


/-! ## Loops -/

theorem forLoop_zero {σ : Type} (body : Nat → σ → σ) (s : σ) : forLoop 0 body s = s := rfl

theorem forLoop_succ {σ : Type} (n : Nat) (body : Nat → σ → σ) (s : σ) :
    forLoop (n + 1) body s = body n (forLoop n body s) := by
  simp [forLoop, List.range_succ, List.foldl_append]

theorem forLoop_sum {R : Type} [Semiring R] (n : Nat) (f : Nat → R) :
    forLoop n (fun k acc => acc + f k) 0 = ∑ k in Finset.range n, f k := by
  induction n with
  | zero => simp [forLoop_zero]
  | succ n ih => rw [forLoop_succ, ih, Finset.sum_range_succ]

/-! ## Logged writes -/

theorem vec_store_same {R : Type} (h : Host R) (m : Mat) (p : Nat) (x : R) :
    (h.store m p x).vec m = (h.vec m).set p x := by
  cases m <;> rfl

theorem vec_store_ne {R : Type} (h : Host R) (m m' : Mat) (p : Nat) (x : R) (hne : m' ≠ m) :
    (h.store m p x).vec m' = h.vec m' := by
  cases m <;> cases m' <;> first | rfl | exact absurd rfl hne

theorem writes_store {R : Type} (h : Host R) (m : Mat) (p : Nat) (x : R) :
    (h.store m p x).writes = h.writes ++ [(m, p)] := by
  cases m <;> rfl

theorem set_map_range_append_drop {R : Type} (f : Nat → R) (l : List R) (n : Nat)
    (hn : n < l.length) (x : R) (hx : x = f n) :
    ((List.range n).map f ++ l.drop n).set n x = (List.range (n + 1)).map f ++ l.drop (n + 1) := by
  subst hx
  apply List.ext_getElem
  · simp [List.length_set]
    omega
  · intro k h1 h2
    rw [List.getElem_set]
    by_cases hk : n = k
    · subst hk
      simp [List.getElem_append]
    · rw [if_neg hk]
      by_cases hlt : k < n
      · rw [List.getElem_append_left (by simpa using hlt),
          List.getElem_append_left (by simp; omega)]
        simp
      · have hgt : n + 1 ≤ k := by omega
        rw [List.getElem_append_right (by simp; omega),
          List.getElem_append_right (by simp; omega)]
        simp only [List.getElem_drop, List.length_map, List.length_range]
        congr 1
        omega

/-- A loop that stores `f p` at every position `p < n` of the vector `m`. -/
theorem store_loop {R : Type} (m : Mat) (f : Nat → R) (h : Host R) (n : Nat)
    (hn : n ≤ (h.vec m).length) :
    (forLoop n (fun p s => s.store m p (f p)) h).vec m
        = (List.range n).map f ++ (h.vec m).drop n ∧
    (∀ m', m' ≠ m → (forLoop n (fun p s => s.store m p (f p)) h).vec m' = h.vec m') ∧
    (forLoop n (fun p s => s.store m p (f p)) h).writes
        = h.writes ++ (List.range n).map (fun p => (m, p)) := by
  induction n with
  | zero => simp [forLoop_zero]
  | succ n ih =>
    obtain ⟨hv, hf, hw⟩ := ih (by omega)
    rw [forLoop_succ]
    generalize forLoop n (fun p s => s.store m p (f p)) h = st at hv hf hw
    refine ⟨?_, ?_, ?_⟩
    · rw [vec_store_same, hv]
      exact set_map_range_append_drop f (h.vec m) n (by omega) (f n) rfl
    · intro m' hne
      rw [vec_store_ne _ _ _ _ _ hne, hf m' hne]
    · rw [writes_store, hw, List.range_succ, List.map_append, List.append_assoc]
      rfl


/-! ## The reference loop -/

theorem accumulate_eq_sum {R : Type} [Semiring R] (size : Nat) (h : Host R) (i j : Nat) :
    accumulate size h i j
      = ∑ k in Finset.range size, h.A.getD (i * size + k) 0 * h.B.getD (k * size + j) 0 := by
  unfold accumulate
  exact forLoop_sum size _

theorem accumulate_congr {R : Type} [Semiring R] (size : Nat) (h h' : Host R) (i j : Nat)
    (hA : h'.A = h.A) (hB : h'.B = h.B) :
    accumulate size h' i j = accumulate size h i j := by
  simp [accumulate, hA, hB]

theorem naiveBody_A {R : Type} [Semiring R] (size i j : Nat) (h : Host R) :
    (naiveBody size i j h).A = h.A := rfl

theorem naiveBody_B {R : Type} [Semiring R] (size i j : Nat) (h : Host R) :
    (naiveBody size i j h).B = h.B := rfl

theorem naiveBody_result_gpu {R : Type} [Semiring R] (size i j : Nat) (h : Host R) :
    (naiveBody size i j h).result_gpu = h.result_gpu := rfl

theorem naiveBody_result_cpu {R : Type} [Semiring R] (size i j : Nat) (h : Host R) :
    (naiveBody size i j h).result_cpu = h.result_cpu.set (i * size + j) (accumulate size h i j) :=
  rfl

theorem naiveBody_writes {R : Type} [Semiring R] (size i j : Nat) (h : Host R) :
    (naiveBody size i j h).writes = h.writes ++ [(Mat.result_cpu, i * size + j)] := rfl

/-- State of row `i` after the first `m` iterations of its `j` loop. -/
theorem row_steps {R : Type} [Semiring R] (size i : Nat) (h : Host R) (m : Nat)
    (hlen : i * size + m ≤ h.result_cpu.length) :
    (forLoop m (fun j st => naiveBody size i j st) h).A = h.A ∧
    (forLoop m (fun j st => naiveBody size i j st) h).B = h.B ∧
    (forLoop m (fun j st => naiveBody size i j st) h).result_gpu = h.result_gpu ∧
    (forLoop m (fun j st => naiveBody size i j st) h).result_cpu.length = h.result_cpu.length ∧
    (forLoop m (fun j st => naiveBody size i j st) h).writes
      = h.writes ++ (List.range m).map (fun j => (Mat.result_cpu, i * size + j)) ∧
    ∀ p, (forLoop m (fun j st => naiveBody size i j st) h).result_cpu.getD p 0
      = if i * size ≤ p ∧ p < i * size + m then accumulate size h i (p - i * size)
        else h.result_cpu.getD p 0 := by
  induction m with
  | zero =>
    simp only [forLoop_zero, List.range_zero, List.map_nil, List.append_nil, true_and]
    intro p
    rw [if_neg (by omega)]
  | succ m ih =>
    obtain ⟨hA, hB, hG, hL, hW, hV⟩ := ih (by omega)
    rw [forLoop_succ]
    generalize forLoop m (fun j st => naiveBody size i j st) h = st at hA hB hG hL hW hV
    refine ⟨hA, hB, hG, ?_, ?_, ?_⟩
    · rw [naiveBody_result_cpu, List.length_set, hL]
    · rw [naiveBody_writes, hW, List.range_succ, List.map_append, List.append_assoc]
      rfl
    · intro p
      have hacc := accumulate_congr size h st i m hA hB
      rw [naiveBody_result_cpu]
      by_cases hp : p = i * size + m
      · subst hp
        have hlt : i * size + m < st.result_cpu.length := by rw [hL]; omega
        rw [List.getD_eq_getElem _ _ (by simpa using hlt), List.getElem_set_self,
          if_pos ⟨by omega, by omega⟩, hacc]
        congr 1
        omega
      · rw [List.getD_eq_getElem?_getD, List.getElem?_set_ne (Ne.symm hp),
          ← List.getD_eq_getElem?_getD, hV p]
        by_cases hc : i * size ≤ p ∧ p < i * size + m
        · rw [if_pos hc, if_pos ⟨hc.1, by omega⟩]
        · rw [if_neg hc, if_neg (by omega)]

/-- State of the whole loop after its first `n` rows. -/
theorem naive_rows {R : Type} [Semiring R] (size : Nat) (h : Host R) (n : Nat)
    (hlen : n * size ≤ h.result_cpu.length) :
    (forLoop n (fun i st => naiveRow size i st) h).A = h.A ∧
    (forLoop n (fun i st => naiveRow size i st) h).B = h.B ∧
    (forLoop n (fun i st => naiveRow size i st) h).result_gpu = h.result_gpu ∧
    (forLoop n (fun i st => naiveRow size i st) h).result_cpu.length = h.result_cpu.length ∧
    (forLoop n (fun i st => naiveRow size i st) h).writes
      = h.writes ++ (List.range (n * size)).map (fun p => (Mat.result_cpu, p)) ∧
    ∀ p, (forLoop n (fun i st => naiveRow size i st) h).result_cpu.getD p 0
      = if p < n * size then accumulate size h (p / size) (p % size)
        else h.result_cpu.getD p 0 := by
  induction n with
  | zero =>
    simp only [forLoop_zero, Nat.zero_mul, List.range_zero, List.map_nil, List.append_nil,
      true_and]
    intro p
    rw [if_neg (by omega)]
  | succ n ih =>
    have hmul : (n + 1) * size = n * size + size := Nat.succ_mul n size
    obtain ⟨hA, hB, hG, hL, hW, hV⟩ := ih (by omega)
    rw [forLoop_succ]
    generalize forLoop n (fun i st => naiveRow size i st) h = st at hA hB hG hL hW hV
    obtain ⟨rA, rB, rG, rL, rW, rV⟩ := row_steps size n st size (by rw [hL]; omega)
    refine ⟨rA.trans hA, rB.trans hB, rG.trans hG, rL.trans hL, ?_, ?_⟩
    · show (forLoop size (fun j st => naiveBody size n j st) st).writes = _
      rw [rW, hW, hmul, List.range_add, List.map_append, List.append_assoc, List.map_map]
      rfl
    · intro p
      show (forLoop size (fun j st => naiveBody size n j st) st).result_cpu.getD p 0 = _
      rw [rV p, hV p]
      by_cases hc : n * size ≤ p ∧ p < n * size + size
      · have hs : 0 < size := by omega
        have hdiv : p / size = n := by
          apply Nat.div_eq_of_lt_le
          · omega
          · rw [hmul]; omega
        have hmod : p % size = p - n * size := by
          have := Nat.div_add_mod p size
          rw [hdiv, Nat.mul_comm] at this
          omega
        rw [if_pos hc, if_pos (by omega), hdiv, hmod]
        exact accumulate_congr size h st n _ hA hB
      · rw [if_neg hc]
        by_cases hq : p < n * size
        · rw [if_pos hq, if_pos (by omega)]
        · rw [if_neg hq, if_neg (by omega)]

/-- The reference loop in closed form: its frame, its write log and the
value of every element of `result_cpu`. -/
theorem naive_spec {R : Type} [Semiring R] (N : Nat) (h : Host R)
    (hC : h.result_cpu.length = N * N) :
    (naive N h).A = h.A ∧ (naive N h).B = h.B ∧ (naive N h).result_gpu = h.result_gpu ∧
    (naive N h).result_cpu.length = N * N ∧
    (naive N h).writes = h.writes ++ (List.range (N * N)).map (fun p => (Mat.result_cpu, p)) ∧
    ∀ p, p < N * N → (naive N h).result_cpu.getD p 0
      = ∑ k in Finset.range N, h.A.getD (p / N * N + k) 0 * h.B.getD (k * N + p % N) 0 := by
  obtain ⟨hA, hB, hG, hL, hW, hV⟩ := naive_rows N h N (by rw [hC])
  refine ⟨hA, hB, hG, hL.trans hC, hW, ?_⟩
  intro p hp
  show (forLoop N (fun i st => naiveRow N i st) h).result_cpu.getD p 0 = _
  rw [hV, if_pos hp, accumulate_eq_sum]

theorem flat_div {N i j : Nat} (hj : j < N) : (i * N + j) / N = i := by
  have hN : 0 < N := by omega
  rw [Nat.mul_comm, Nat.mul_add_div hN, Nat.div_eq_of_lt hj, Nat.add_zero]

theorem flat_mod {N i j : Nat} (hj : j < N) : (i * N + j) % N = j := by
  rw [Nat.mul_comm, Nat.mul_add_mod, Nat.mod_eq_of_lt hj]

theorem flat_lt {N i j : Nat} (hi : i < N) (hj : j < N) : i * N + j < N * N := by
  have : (i + 1) * N ≤ N * N := Nat.mul_le_mul_right N hi
  rw [Nat.succ_mul] at this
  omega

theorem identityMatrix_getD {R : Type} [Semiring R] (N i k : Nat) (hi : i < N) (hk : k < N) :
    (identityMatrix R N).getD (i * N + k) 0 = if i = k then 1 else 0 := by
  have hlt := flat_lt hi hk
  unfold identityMatrix
  rw [List.getD_eq_getElem _ _ (by simpa using hlt)]
  simp [flat_div hk, flat_mod hk]

/-- C1. For every dimension `N`, all `N×N` row-major inputs `A`, `B` and all
`i, j < N`, the reference triple loop leaves in `result_cpu[i*N+j]` the sum
over `k < N` of `A[i*N+k] * B[k*N+j]` (exact arithmetic). -/
theorem naive_computes_product {R : Type} [Semiring R] (N : Nat) (h : Host R)
    (hA : h.A.length = N * N) (hB : h.B.length = N * N) (hC : h.result_cpu.length = N * N)
    (i j : Nat) (hi : i < N) (hj : j < N) :
    (naive N h).result_cpu.getD (i * N + j) 0
      = ∑ k in Finset.range N, h.A.getD (i * N + k) 0 * h.B.getD (k * N + j) 0 := by
  have _ := hA
  have _ := hB
  obtain ⟨_, _, _, _, _, hV⟩ := naive_spec N h hC
  rw [hV _ (flat_lt hi hj), flat_div hj, flat_mod hj]

/-- Witness of C1: entry `(1, 0)` of the `2×2` integer product `sample2`. -/
theorem naive_computes_product_witness :
    (naive 2 sample2).result_cpu.getD (1 * 2 + 0) 0
      = ∑ k in Finset.range 2, sample2.A.getD (1 * 2 + k) 0 * sample2.B.getD (k * 2 + 0) 0 :=
  naive_computes_product 2 sample2 rfl rfl rfl 1 0 (by decide) (by decide)

/-- C2. When `A` is the `N×N` identity matrix the reference result equals `B`
entry for entry, for every `N` and every `N×N` matrix `B`. -/
theorem naive_identity {R : Type} [Semiring R] (N : Nat) (h : Host R)
    (hA : h.A = identityMatrix R N) (hB : h.B.length = N * N)
    (hC : h.result_cpu.length = N * N) :
    (naive N h).result_cpu = h.B := by
  obtain ⟨_, _, _, hL, _, hV⟩ := naive_spec N h hC
  apply List.ext_getElem (by rw [hL, hB])
  intro p h1 h2
  have hp : p < N * N := by rw [hL] at h1; exact h1
  have hN : 0 < N := by
    rcases Nat.eq_zero_or_pos N with h0 | h0
    · subst h0; simp at hp
    · exact h0
  have hdiv : p / N < N := by
    apply Nat.div_lt_of_lt_mul
    exact hp
  have hmod : p % N < N := Nat.mod_lt p hN
  rw [← List.getD_eq_getElem _ 0 h1, ← List.getD_eq_getElem _ 0 h2, hV p hp, hA]
  rw [Finset.sum_congr rfl (fun k hk => by
    rw [identityMatrix_getD N (p / N) k hdiv (Finset.mem_range.mp hk)])]
  simp only [ite_mul, one_mul, zero_mul]
  rw [Finset.sum_ite_eq, if_pos (Finset.mem_range.mpr hdiv)]
  congr 1
  have := Nat.div_add_mod p N
  rw [Nat.mul_comm] at this
  exact this

/-- Witness of C2, scenario 1: `N = 2`, `A = [[1,0],[0,1]]`, `B = [[5,6],[7,8]]`
gives `[[5,6],[7,8]]`. -/
theorem naive_identity_witness :
    scenario1.A = identityMatrix ℚ 2 ∧ (naive 2 scenario1).result_cpu = [5, 6, 7, 8] :=
  ⟨by simp [scenario1, identityMatrix, List.range_succ],
   naive_identity 2 scenario1 (by simp [scenario1, identityMatrix, List.range_succ]) rfl rfl⟩


/-! ## Index safety -/

theorem wrapInt32_of_range (x : Int) (h0 : 0 ≤ x) (h1 : x < 2 ^ 31) : wrapInt32 x = x := by
  unfold wrapInt32
  rw [Int.emod_eq_of_lt (by omega) (by omega)]
  omega

theorem flatIndex32_exact (N r c : Nat) (hrep : N * N < 2 ^ 31) (hr : r < N) (hc : c < N) :
    flatIndex32 r N c = ((r * N + c : Nat) : Int) := by
  have hlt := flat_lt hr hc
  have h1 : ((r * N : Nat) : Int) < 2 ^ 31 := by
    have : r * N < 2 ^ 31 := by omega
    exact_mod_cast this
  have h2 : ((r * N + c : Nat) : Int) < 2 ^ 31 := by
    have : r * N + c < 2 ^ 31 := by omega
    exact_mod_cast this
  unfold flatIndex32
  have e1 : (r : Int) * (N : Int) = ((r * N : Nat) : Int) := by push_cast; rfl
  rw [e1, wrapInt32_of_range _ (Int.natCast_nonneg _) h1]
  have e2 : ((r * N : Nat) : Int) + (c : Int) = ((r * N + c : Nat) : Int) := by push_cast; rfl
  rw [e2, wrapInt32_of_range _ (Int.natCast_nonneg _) h2]

theorem readAt_natCast {R : Type} [Semiring R] (v : List R) (p : Nat) (hp : p < v.length) :
    readAt v (p : Int) = some (v.getD p 0) := by
  unfold readAt
  rw [if_pos (Int.natCast_nonneg p), Int.toNat_natCast, List.getD_eq_getElem _ _ hp,
    List.getElem?_eq_getElem hp]

theorem flat_unique (N m : Nat) (hm : m < N * N) :
    ∃! p : Nat × Nat, p.1 < N ∧ p.2 < N ∧ p.1 * N + p.2 = m := by
  have hN : 0 < N := by
    rcases Nat.eq_zero_or_pos N with h0 | h0
    · subst h0; simp at hm
    · exact h0
  refine ⟨(m / N, m % N), ⟨Nat.div_lt_of_lt_mul hm, Nat.mod_lt m hN, ?_⟩, ?_⟩
  · have := Nat.div_add_mod m N
    rw [Nat.mul_comm] at this
    exact this
  · rintro ⟨a, b⟩ ⟨_, hb, hab⟩
    simp only at hb hab
    subst hab
    rw [flat_div hb, flat_mod hb]

/-- C10. When `N*N` fits a 32-bit signed `int`, for all `i, j, k < N` the
32-bit index expressions `i*N+k`, `k*N+j`, `i*N+j` (and the length `N*N`)
are computed without wrap-around, are non-negative and below `N*N`, every
checked read at them succeeds with the value the loop uses, the write index
is inside `result_cpu`, and `(i, j) ↦ i*N+j` hits every index below `N*N`
exactly once. -/
theorem index_safety {R : Type} [Semiring R] (N : Nat) (hrep : N * N < 2 ^ 31)
    (i j k : Nat) (hi : i < N) (hj : j < N) (hk : k < N)
    (A B C : List R) (hA : A.length = N * N) (hB : B.length = N * N)
    (hC : C.length = N * N) :
    wrapInt32 ((N : Int) * (N : Int)) = ((N * N : Nat) : Int) ∧
    (flatIndex32 i N k = ((i * N + k : Nat) : Int) ∧
     flatIndex32 k N j = ((k * N + j : Nat) : Int) ∧
     flatIndex32 i N j = ((i * N + j : Nat) : Int)) ∧
    (0 ≤ flatIndex32 i N k ∧ flatIndex32 i N k < ((N * N : Nat) : Int)) ∧
    (0 ≤ flatIndex32 k N j ∧ flatIndex32 k N j < ((N * N : Nat) : Int)) ∧
    (0 ≤ flatIndex32 i N j ∧ flatIndex32 i N j < ((N * N : Nat) : Int)) ∧
    readAt A (flatIndex32 i N k) = some (A.getD (i * N + k) 0) ∧
    readAt B (flatIndex32 k N j) = some (B.getD (k * N + j) 0) ∧
    readAt C (flatIndex32 i N j) = some (C.getD (i * N + j) 0) ∧
    (flatIndex32 i N j).toNat < C.length ∧
    ∀ m, m < N * N → ∃! p : Nat × Nat, p.1 < N ∧ p.2 < N ∧ p.1 * N + p.2 = m := by
  have e1 := flatIndex32_exact N i k hrep hi hk
  have e2 := flatIndex32_exact N k j hrep hk hj
  have e3 := flatIndex32_exact N i j hrep hi hj
  have l1 := flat_lt hi hk
  have l2 := flat_lt hk hj
  have l3 := flat_lt hi hj
  refine ⟨?_, ⟨e1, e2, e3⟩, ?_, ?_, ?_, ?_, ?_, ?_, ?_, fun m hm => flat_unique N m hm⟩
  · have e0 : (N : Int) * (N : Int) = ((N * N : Nat) : Int) := by push_cast; rfl
    rw [e0]
    exact wrapInt32_of_range _ (Int.natCast_nonneg _) (by exact_mod_cast hrep)
  · rw [e1]; exact ⟨Int.natCast_nonneg _, by exact_mod_cast l1⟩
  · rw [e2]; exact ⟨Int.natCast_nonneg _, by exact_mod_cast l2⟩
  · rw [e3]; exact ⟨Int.natCast_nonneg _, by exact_mod_cast l3⟩
  · rw [e1]; exact readAt_natCast A _ (by rw [hA]; exact l1)
  · rw [e2]; exact readAt_natCast B _ (by rw [hB]; exact l2)
  · rw [e3]; exact readAt_natCast C _ (by rw [hC]; exact l3)
  · rw [e3, Int.toNat_natCast, hC]; exact l3

/-- Witness of C10 at the program's own size `N = 512`, last row and
column, on zeroed `512×512` matrices. -/
theorem index_safety_witness :
    flatIndex32 511 512 511 = ((511 * 512 + 511 : Nat) : Int) ∧
    (flatIndex32 511 512 511).toNat < (List.replicate (512 * 512) (0 : ℚ)).length :=
  ⟨(index_safety 512 (by norm_num) 511 511 511 (by norm_num) (by norm_num) (by norm_num)
      (List.replicate (512 * 512) (0 : ℚ)) (List.replicate (512 * 512) 0)
      (List.replicate (512 * 512) 0) (List.length_replicate _ _) (List.length_replicate _ _)
      (List.length_replicate _ _)).2.1.1,
   (index_safety 512 (by norm_num) 511 511 511 (by norm_num) (by norm_num) (by norm_num)
      (List.replicate (512 * 512) (0 : ℚ)) (List.replicate (512 * 512) 0)
      (List.replicate (512 * 512) 0) (List.length_replicate _ _) (List.length_replicate _ _)
      (List.length_replicate _ _)).2.2.2.2.2.2.2.2.1⟩


/-! ## Sequential execution of the `try` block -/

theorem runStmts_append (env : Env) (size : Nat) (l1 l2 : List Stmt) (s : State) :
    runStmts env size (l1 ++ l2) s =
      match runStmts env size l1 s with
      | (s1, none) => runStmts env size l2 s1
      | (s1, some e) => (s1, some e) := by
  induction l1 generalizing s with
  | nil => rfl
  | cons st rest ih =>
    simp only [List.cons_append, runStmts]
    cases raises env st with
    | none => exact ih _
    | some e => rfl

theorem runStmts_ok (env : Env) (size : Nat) (l : List Stmt) (s : State)
    (h : ∀ st ∈ l, raises env st = none) :
    runStmts env size l s = (l.foldl (fun s1 st => effect env size st s1) s, none) := by
  induction l generalizing s with
  | nil => rfl
  | cons st rest ih =>
    simp only [runStmts, h st (List.mem_cons_self _ _), List.foldl_cons]
    exact ih _ (fun st1 h1 => h st1 (List.mem_cons_of_mem _ h1))

theorem runStmts_raised_none (env : Env) (size : Nat) (l : List Stmt) (s : State) :
    (runStmts env size l s).2 = none ↔ ∀ st ∈ l, raises env st = none := by
  induction l generalizing s with
  | nil => simp [runStmts]
  | cons st rest ih =>
    simp only [runStmts, List.mem_cons, forall_eq_or_imp]
    cases hr : raises env st with
    | none => simpa using ih _
    | some e => simp

theorem main_raised (env : Env) (size : Nat) :
    (main env size).raised = (runStmts env size mainBody State.init).2 := by
  unfold main
  split
  · next s h => rw [h]
  · next s e h =>
    rw [h]
    split <;> rfl

theorem main_final (env : Env) (size : Nat) :
    (main env size).final = (runStmts env size mainBody State.init).1 := by
  unfold main
  split
  · next s h => rw [h]
  · next s e h =>
    rw [h]
    split <;> rfl

theorem main_cout (env : Env) (size : Nat) :
    (main env size).cout = (main env size).final.cout := by
  unfold main
  split
  · rfl
  · split <;> rfl

/-- A run raises nothing exactly when no statement of the `try` block
raises. -/
theorem main_raised_none (env : Env) (size : Nat) :
    (main env size).raised = none ↔ ∀ st ∈ mainBody, raises env st = none := by
  rw [main_raised]
  exact runStmts_raised_none env size mainBody State.init

/-- The final state of a run in which nothing is raised. -/
theorem main_final_ok (env : Env) (size : Nat) (h : (main env size).raised = none) :
    (main env size).final = mainBody.foldl (fun s1 st => effect env size st s1) State.init := by
  rw [main_final, runStmts_ok env size mainBody State.init ((main_raised_none env size).mp h)]

theorem effect_cout (env : Env) (size : Nat) (st : Stmt) (s : State)
    (h : st ∉ reportStage) : (effect env size st s).cout = s.cout := by
  cases st <;> first | rfl | (exfalso; apply h; simp [reportStage])

theorem runStmts_cout (env : Env) (size : Nat) (l : List Stmt) (s : State)
    (h : ∀ st ∈ l, st ∉ reportStage) : (runStmts env size l s).1.cout = s.cout := by
  induction l generalizing s with
  | nil => rfl
  | cons st rest ih =>
    simp only [runStmts]
    cases raises env st with
    | some e => rfl
    | none =>
      show (runStmts env size rest (effect env size st s)).1.cout = s.cout
      rw [ih _ (fun st1 h1 => h st1 (List.mem_cons_of_mem _ h1)),
        effect_cout env size st s (h st (List.mem_cons_self _ _))]


/-! ## Exit status and output on failure -/

theorem report_raises (env : Env) : ∀ st ∈ reportStage, raises env st = none := by
  intro st h
  simp only [reportStage, List.mem_cons, List.mem_singleton, List.not_mem_nil, or_false] at h
  rcases h with h | h | h <;> subst h <;> rfl

theorem before_report : ∀ st ∈ sessionStage ++ generatorStage ++ referenceStage ++ acceleratorStage,
    st ∉ reportStage := by
  decide

/-- C3. The exit status of `main`: `0` when no statement raises; the
exception's own `err()` when a `cl::BuildError` or another `cl::Error` is
raised; `EXIT_FAILURE` when any other `std::exception` is raised, in
particular the `runtime_error` of line 27 when the kernel source cannot be
opened. -/
theorem exit_code (env : Env) (size : Nat) :
    ((∀ st ∈ mainBody, raises env st = none) → (main env size).exitCode = some 0) ∧
    (∀ e, (main env size).raised = some e →
      e.cls = ExnClass.BuildError ∨ e.cls = ExnClass.Error →
      (main env size).exitCode = some e.err) ∧
    (∀ e, (main env size).raised = some e →
      e.cls ≠ ExnClass.BuildError → e.cls ≠ ExnClass.Error →
      (main env size).exitCode = some env.EXIT_FAILURE) ∧
    (env.fails Stmt.getDefaultQueue = none → env.fails Stmt.getDevice = none →
      env.sourceOpens = false →
      (main env size).exitCode = some env.EXIT_FAILURE ∧
      ((main env size).raised.map fun e => e.cls) = some ExnClass.runtime_error) := by
  refine ⟨?_, ?_, ?_, ?_⟩
  · intro h
    have hr := (main_raised_none env size).mpr h
    rw [main_raised] at hr
    unfold main
    split
    · rfl
    · next s e he => rw [he] at hr; cases hr
  · intro e he hcls
    rw [main_raised] at he
    unfold main
    split
    · next s hs => rw [hs] at he; cases he
    · next s e1 hs =>
      rw [hs] at he
      cases he
      obtain ⟨cls, what, err, log⟩ := e
      rcases hcls with h | h <;> simp only at h <;> subst h <;> rfl
  · intro e he h1 h2
    rw [main_raised] at he
    unfold main
    split
    · next s hs => rw [hs] at he; cases he
    · next s e1 hs =>
      rw [hs] at he
      cases he
      obtain ⟨cls, what, err, log⟩ := e
      cases cls
      · exact absurd rfl h1
      · exact absurd rfl h2
      · rfl
      · rfl
      · rfl
  · intro h1 h2 h3
    have hrun : runStmts env size mainBody State.init
        = (effect env size Stmt.getDevice (effect env size Stmt.getDefaultQueue State.init),
           some { cls := ExnClass.runtime_error
                  what := "Cannot open kernel source: " ++ "matmul.cl"
                  err := 0
                  buildLog := [] }) := by
      simp [mainBody, sessionStage, runStmts, raises, Stmt.fallible, h1, h2, h3]
    unfold main
    rw [hrun]
    exact ⟨rfl, rfl⟩

/-- Witness of C3: a clean run exits with `0`, a build failure with the
build error's code `-11`, a failing `cl::finish` with its code `-36`, a
failed allocation and a missing kernel file with `EXIT_FAILURE`. -/
theorem exit_code_witness :
    (main Env.quiet 2).exitCode = some 0 ∧
    (main Env.buildFails 2).exitCode = some (-11) ∧
    (main Env.finishFails 2).exitCode = some (-36) ∧
    (main Env.allocFails 2).exitCode = some Env.allocFails.EXIT_FAILURE ∧
    (main Env.noSource 2).exitCode = some Env.noSource.EXIT_FAILURE :=
  ⟨(exit_code Env.quiet 2).1 (by decide),
   (exit_code Env.buildFails 2).2.1
     { cls := ExnClass.BuildError, what := "clBuildProgram", err := -11,
       buildLog := [("GPU", "error: expected expression")] } (by decide) (Or.inl rfl),
   (exit_code Env.finishFails 2).2.1
     { cls := ExnClass.Error, what := "clFinish", err := -36, buildLog := [] }
     (by decide) (Or.inr rfl),
   (exit_code Env.allocFails 2).2.2.1
     { cls := ExnClass.bad_alloc, what := "std::bad_alloc", err := 0, buildLog := [] }
     (by decide) (by decide) (by decide),
   ((exit_code Env.noSource 2).2.2.2 rfl rfl rfl).1⟩

/-- C4. When any statement of the `try` block raises, nothing has been
written to standard output when the process ends: none of the three summary
lines appears, whatever had been computed before the failure. -/
theorem no_summary_on_failure (env : Env) (size : Nat)
    (h : ∃ st ∈ mainBody, raises env st ≠ none) :
    (main env size).cout = [] ∧ (main env size).raised ≠ none := by
  have hne : (main env size).raised ≠ none := by
    intro hn
    obtain ⟨st, hst, hr⟩ := h
    exact hr ((main_raised_none env size).mp hn st hst)
  refine ⟨?_, hne⟩
  rw [main_raised] at hne
  rw [main_cout, main_final]
  have hsplit : mainBody
      = (sessionStage ++ generatorStage ++ referenceStage ++ acceleratorStage) ++ reportStage :=
    rfl
  rw [hsplit, runStmts_append] at hne ⊢
  have hc := runStmts_cout env size
    (sessionStage ++ generatorStage ++ referenceStage ++ acceleratorStage) State.init
    before_report
  revert hne hc
  generalize runStmts env size
    (sessionStage ++ generatorStage ++ referenceStage ++ acceleratorStage) State.init = r
  obtain ⟨s1, r1⟩ := r
  cases r1 with
  | none =>
    intro hne _
    exact absurd ((runStmts_raised_none env size reportStage s1).mpr (report_raises env)) hne
  | some e =>
    intro _ hc
    exact hc

/-- Witness of C4: `cl::finish()` fails after the reference computation and
its timing are complete, and standard output is empty. -/
theorem no_summary_on_failure_witness :
    Event.now Sample.time_cpu1 ∈ (main Env.finishFails 2).final.trace ∧
    (main Env.finishFails 2).cout = [] ∧ (main Env.finishFails 2).raised ≠ none :=
  ⟨by decide, no_summary_on_failure Env.finishFails 2 ⟨Stmt.finish, by decide, by decide⟩⟩


/-! ## Generator, fill and copy-back in closed form -/

theorem generate_steps (draws : Nat → Nat) (m : Mat) (h : Host ℚ) (d n : Nat) :
    forLoop n (fun p s => ((s : Host ℚ × Nat).1.store m p (gen draws s.2), s.2 + 2)) (h, d)
      = (forLoop n (fun p s => s.store m p (gen draws (d + 2 * p))) h, d + 2 * n) := by
  induction n with
  | zero => rfl
  | succ n ih =>
    rw [forLoop_succ, ih, forLoop_succ]
    simp only [Prod.mk.injEq, true_and]
    omega

theorem generate_spec (draws : Nat → Nat) (m : Mat) (h : Host ℚ) (d : Nat) :
    (generate draws m (h, d)).1.vec m
        = (List.range (h.vec m).length).map (fun p => gen draws (d + 2 * p)) ∧
    (∀ m', m' ≠ m → (generate draws m (h, d)).1.vec m' = h.vec m') ∧
    (generate draws m (h, d)).1.writes = h.writes ++ writesAll m (h.vec m).length ∧
    (generate draws m (h, d)).2 = d + 2 * (h.vec m).length := by
  unfold generate
  rw [generate_steps]
  obtain ⟨hv, hf, hw⟩ :=
    store_loop m (fun p => gen draws (d + 2 * p)) h (h.vec m).length (Nat.le_refl _)
  refine ⟨?_, hf, hw, rfl⟩
  rw [hv, List.drop_length, List.append_nil]

theorem fill_spec (m : Mat) (h : Host ℚ) :
    (fill m h).vec m = List.replicate (h.vec m).length 0 ∧
    (∀ m', m' ≠ m → (fill m h).vec m' = h.vec m') ∧
    (fill m h).writes = h.writes ++ writesAll m (h.vec m).length := by
  unfold fill
  obtain ⟨hv, hf, hw⟩ := store_loop m (fun _ => (0 : ℚ)) h (h.vec m).length (Nat.le_refl _)
  refine ⟨?_, hf, hw⟩
  rw [hv, List.drop_length, List.append_nil]
  apply List.ext_getElem <;> simp

theorem copyOut_spec (buf : List ℚ) (m : Mat) (h : Host ℚ) :
    (copyOut buf m h).vec m = (List.range (h.vec m).length).map (fun p => buf.getD p 0) ∧
    (∀ m', m' ≠ m → (copyOut buf m h).vec m' = h.vec m') ∧
    (copyOut buf m h).writes = h.writes ++ writesAll m (h.vec m).length := by
  unfold copyOut
  obtain ⟨hv, hf, hw⟩ :=
    store_loop m (fun p => buf.getD p 0) h (h.vec m).length (Nat.le_refl _)
  refine ⟨?_, hf, hw⟩
  rw [hv, List.drop_length, List.append_nil]

theorem map_getD_range (l : List ℚ) :
    (List.range l.length).map (fun p => l.getD p 0) = l := by
  apply List.ext_getElem
  · simp
  · intro k h1 h2
    simp only [List.getElem_map, List.getElem_range]
    exact List.getD_eq_getElem _ _ h2

theorem copyIn_self (l : List ℚ) : copyIn l l = l := by
  unfold copyIn
  rw [List.drop_length, List.append_nil]

/-! ## The state of a run in which nothing is raised -/

/-- Host memory after the generator stage (lines 40–53), whatever the state
it starts from. -/
theorem generator_host (env : Env) (size : Nat) (s : State) :
    (generatorStage.foldl (fun s1 st => effect env size st s1) s).host.A
        = workloadA env.draws size ∧
    (generatorStage.foldl (fun s1 st => effect env size st s1) s).host.B
        = workloadB env.draws size ∧
    (generatorStage.foldl (fun s1 st => effect env size st s1) s).host.result_cpu
        = List.replicate (size * size) 0 ∧
    (generatorStage.foldl (fun s1 st => effect env size st s1) s).host.result_gpu
        = List.replicate (size * size) 0 ∧
    (generatorStage.foldl (fun s1 st => effect env size st s1) s).host.writes
        = s.host.writes ++ writesAll Mat.A (size * size) ++ writesAll Mat.B (size * size)
          ++ writesAll Mat.result_cpu (size * size) ++ writesAll Mat.result_gpu (size * size) := by
  simp only [generatorStage, List.foldl, effect]
  generalize hh0 : ({ s.host with
      A := List.replicate (size * size) (0 : ℚ)
      B := List.replicate (size * size) (0 : ℚ)
      result_cpu := List.replicate (size * size) (0 : ℚ)
      result_gpu := List.replicate (size * size) (0 : ℚ) } : Host ℚ) = h0
  have a0 : h0.A.length = size * size := by subst hh0; exact List.length_replicate _ _
  have b0 : h0.B.length = size * size := by subst hh0; exact List.length_replicate _ _
  have c0 : h0.result_cpu.length = size * size := by subst hh0; exact List.length_replicate _ _
  have d0 : h0.result_gpu.length = size * size := by subst hh0; exact List.length_replicate _ _
  have w0 : h0.writes = s.host.writes := by subst hh0; rfl
  obtain ⟨gA, gAf, gAw, gAd⟩ := generate_spec env.draws Mat.A h0 0
  generalize generate env.draws Mat.A (h0, 0) = g1 at gA gAf gAw gAd
  obtain ⟨gB, gBf, gBw, _⟩ := generate_spec env.draws Mat.B g1.1 g1.2
  generalize generate env.draws Mat.B (g1.1, g1.2) = g2 at gB gBf gBw
  obtain ⟨fC, fCf, fCw⟩ := fill_spec Mat.result_cpu g2.1
  generalize fill Mat.result_cpu g2.1 = f1 at fC fCf fCw
  obtain ⟨fG, fGf, fGw⟩ := fill_spec Mat.result_gpu f1
  generalize fill Mat.result_gpu f1 = f2 at fG fGf fGw
  have e1 : g1.1.A = workloadA env.draws size := by
    have := gA
    simp only [Host.vec] at this
    rw [this, a0]
    rfl
  have e1B : g1.1.B = h0.B := gAf Mat.B (by decide)
  have e1C : g1.1.result_cpu = h0.result_cpu := gAf Mat.result_cpu (by decide)
  have e1G : g1.1.result_gpu = h0.result_gpu := gAf Mat.result_gpu (by decide)
  have e2 : g2.1.B = workloadB env.draws size := by
    have := gB
    simp only [Host.vec] at this
    have hd : g1.2 = 0 + 2 * (size * size) := by
      rw [gAd]
      simp only [Host.vec]
      rw [a0]
    rw [this, e1B, b0, hd]
    rfl
  have e2A : g2.1.A = g1.1.A := gBf Mat.A (by decide)
  have e2C : g2.1.result_cpu = g1.1.result_cpu := gBf Mat.result_cpu (by decide)
  have e2G : g2.1.result_gpu = g1.1.result_gpu := gBf Mat.result_gpu (by decide)
  have e3 : f1.result_cpu = List.replicate (size * size) 0 := by
    have := fC
    simp only [Host.vec] at this
    rw [this, e2C, e1C, c0]
  have e3A : f1.A = g2.1.A := fCf Mat.A (by decide)
  have e3B : f1.B = g2.1.B := fCf Mat.B (by decide)
  have e3G : f1.result_gpu = g2.1.result_gpu := fCf Mat.result_gpu (by decide)
  have e4 : f2.result_gpu = List.replicate (size * size) 0 := by
    have := fG
    simp only [Host.vec] at this
    rw [this, e3G, e2G, e1G, d0]
  have e4A : f2.A = f1.A := fGf Mat.A (by decide)
  have e4B : f2.B = f1.B := fGf Mat.B (by decide)
  have e4C : f2.result_cpu = f1.result_cpu := fGf Mat.result_cpu (by decide)
  refine ⟨?_, ?_, ?_, ?_, ?_⟩
  · rw [e4A, e3A, e2A, e1]
  · rw [e4B, e3B, e2]
  · rw [e4C, e3]
  · exact e4
  · rw [fGw, fCw, gBw, gAw, w0]
    simp only [Host.vec]
    rw [a0, e1B, b0, e2C, e1C, c0, e3G, e2G, e1G, d0]


/-- The session stage (lines 21–34) touches no host vector. -/
theorem session_stage (env : Env) (size : Nat) (s : State) :
    (sessionStage.foldl (fun s1 st => effect env size st s1) s).host = s.host ∧
    (sessionStage.foldl (fun s1 st => effect env size st s1) s).trace
      = s.trace ++ [Event.getDefaultQueue, Event.getDevice, Event.openSource,
          Event.createProgram, Event.build, Event.bindKernel "matmul"] := by
  simp [sessionStage, effect]

/-- The generator stage calls neither the device nor the clock. -/
theorem generator_trace (env : Env) (size : Nat) (s : State) :
    (generatorStage.foldl (fun s1 st => effect env size st s1) s).trace = s.trace := by
  simp [generatorStage, effect]

/-- The reference stage (lines 58–72): two clock samples around the loop. -/
theorem reference_stage (env : Env) (size : Nat) (s : State) :
    (referenceStage.foldl (fun s1 st => effect env size st s1) s).host = naive size s.host ∧
    (referenceStage.foldl (fun s1 st => effect env size st s1) s).trace
      = s.trace ++ [Event.now Sample.time_cpu0, Event.now Sample.time_cpu1] := by
  simp [referenceStage, effect]

/-- The calls issued by the accelerator stage (lines 78–102), in order. -/
theorem accelerator_trace (env : Env) (size : Nat) (s : State) :
    (acceleratorStage.foldl (fun s1 st => effect env size st s1) s).trace
      = s.trace ++
        [Event.createBuffer Buf.buf_A s.host.A.length true,
         Event.createBuffer Buf.buf_B s.host.B.length true,
         Event.createBuffer Buf.buf_result_gpu s.host.result_gpu.length false,
         Event.now Sample.time_gpu0,
         Event.copyToDevice Mat.A Buf.buf_A s.host.A,
         Event.copyToDevice Mat.B Buf.buf_B s.host.B,
         Event.copyToDevice Mat.result_gpu Buf.buf_result_gpu s.host.result_gpu,
         Event.launch "matmul" (size * size) [Buf.buf_A, Buf.buf_B, Buf.buf_result_gpu] size,
         Event.finish,
         Event.copyToHost Buf.buf_A Mat.A,
         Event.copyToHost Buf.buf_B Mat.B,
         Event.copyToHost Buf.buf_result_gpu Mat.result_gpu,
         Event.now Sample.time_gpu1] := by
  simp [acceleratorStage, effect]

/-- Host memory after the accelerator stage: the three copy-backs overwrite
every element of `A`, `B` and `result_gpu`; `A` and `B` receive the values
they already hold, `result_gpu` the kernel's output; `result_cpu` is not
touched. -/
theorem accelerator_host (env : Env) (size : Nat) (s : State) :
    (acceleratorStage.foldl (fun s1 st => effect env size st s1) s).host.A = s.host.A ∧
    (acceleratorStage.foldl (fun s1 st => effect env size st s1) s).host.B = s.host.B ∧
    (acceleratorStage.foldl (fun s1 st => effect env size st s1) s).host.result_cpu
      = s.host.result_cpu ∧
    (acceleratorStage.foldl (fun s1 st => effect env size st s1) s).host.result_gpu
      = (List.range s.host.result_gpu.length).map (fun p =>
          (env.kernel s.host.A s.host.B s.host.result_gpu size).getD p 0) ∧
    (acceleratorStage.foldl (fun s1 st => effect env size st s1) s).host.writes
      = s.host.writes ++ writesAll Mat.A s.host.A.length ++ writesAll Mat.B s.host.B.length
          ++ writesAll Mat.result_gpu s.host.result_gpu.length := by
  simp only [acceleratorStage, List.foldl, effect, copyIn_self]
  obtain ⟨oA, oAf, oAw⟩ := copyOut_spec s.host.A Mat.A s.host
  generalize copyOut s.host.A Mat.A s.host = h1 at oA oAf oAw
  obtain ⟨oB, oBf, oBw⟩ := copyOut_spec s.host.B Mat.B h1
  generalize copyOut s.host.B Mat.B h1 = h2 at oB oBf oBw
  obtain ⟨oG, oGf, oGw⟩ :=
    copyOut_spec (env.kernel s.host.A s.host.B s.host.result_gpu size) Mat.result_gpu h2
  generalize copyOut (env.kernel s.host.A s.host.B s.host.result_gpu size) Mat.result_gpu h2
    = h3 at oG oGf oGw
  simp only [Host.vec] at oA oB oG oAw oBw oGw
  have a1 : h1.A = s.host.A := by rw [oA, map_getD_range]
  have b1 : h1.B = s.host.B := oAf Mat.B (by decide)
  have c1 : h1.result_cpu = s.host.result_cpu := oAf Mat.result_cpu (by decide)
  have g1 : h1.result_gpu = s.host.result_gpu := oAf Mat.result_gpu (by decide)
  have a2 : h2.A = h1.A := oBf Mat.A (by decide)
  have b2 : h2.B = s.host.B := by rw [oB, b1, map_getD_range]
  have c2 : h2.result_cpu = h1.result_cpu := oBf Mat.result_cpu (by decide)
  have g2 : h2.result_gpu = h1.result_gpu := oBf Mat.result_gpu (by decide)
  have a3 : h3.A = h2.A := oGf Mat.A (by decide)
  have b3 : h3.B = h2.B := oGf Mat.B (by decide)
  have c3 : h3.result_cpu = h2.result_cpu := oGf Mat.result_cpu (by decide)
  refine ⟨?_, ?_, ?_, ?_, ?_⟩
  · rw [a3, a2, a1]
  · rw [b3, b2]
  · rw [c3, c2, c1]
  · rw [oG, g2, g1]
  · rw [oGw, oBw, oAw, b1, g2, g1]

/-- The report stage touches neither the host vectors nor the trace. -/
theorem report_stage (env : Env) (size : Nat) (s : State) :
    (reportStage.foldl (fun s1 st => effect env size st s1) s).host = s.host ∧
    (reportStage.foldl (fun s1 st => effect env size st s1) s).trace = s.trace := by
  simp [reportStage, effect]


theorem workloadA_length (draws : Nat → Nat) (size : Nat) :
    (workloadA draws size).length = size * size := by
  simp [workloadA]

theorem workloadB_length (draws : Nat → Nat) (size : Nat) :
    (workloadB draws size).length = size * size := by
  simp [workloadB]

/-- The trace, the host vectors and the write log at the end of a run in
which nothing is raised. -/
theorem final_ok (env : Env) (size : Nat) (h : (main env size).raised = none) :
    (main env size).final.trace
      = [Event.getDefaultQueue, Event.getDevice, Event.openSource, Event.createProgram,
         Event.build, Event.bindKernel "matmul",
         Event.now Sample.time_cpu0, Event.now Sample.time_cpu1,
         Event.createBuffer Buf.buf_A (size * size) true,
         Event.createBuffer Buf.buf_B (size * size) true,
         Event.createBuffer Buf.buf_result_gpu (size * size) false,
         Event.now Sample.time_gpu0,
         Event.copyToDevice Mat.A Buf.buf_A (workloadA env.draws size),
         Event.copyToDevice Mat.B Buf.buf_B (workloadB env.draws size),
         Event.copyToDevice Mat.result_gpu Buf.buf_result_gpu (List.replicate (size * size) 0),
         Event.launch "matmul" (size * size) [Buf.buf_A, Buf.buf_B, Buf.buf_result_gpu] size,
         Event.finish,
         Event.copyToHost Buf.buf_A Mat.A,
         Event.copyToHost Buf.buf_B Mat.B,
         Event.copyToHost Buf.buf_result_gpu Mat.result_gpu,
         Event.now Sample.time_gpu1] ∧
    (main env size).final.host.A = workloadA env.draws size ∧
    (main env size).final.host.B = workloadB env.draws size ∧
    (main env size).final.host.result_gpu
      = (List.range (size * size)).map (fun p =>
          (env.kernel (workloadA env.draws size) (workloadB env.draws size)
            (List.replicate (size * size) 0) size).getD p 0) ∧
    (main env size).final.host.writes
      = writesAll Mat.A (size * size) ++ writesAll Mat.B (size * size)
        ++ writesAll Mat.result_cpu (size * size) ++ writesAll Mat.result_gpu (size * size)
        ++ writesAll Mat.result_cpu (size * size)
        ++ writesAll Mat.A (size * size) ++ writesAll Mat.B (size * size)
        ++ writesAll Mat.result_gpu (size * size) ∧
    ∀ i j, i < size → j < size →
      (main env size).final.host.result_cpu.getD (i * size + j) 0
        = ∑ k in Finset.range size,
            (workloadA env.draws size).getD (i * size + k) 0
              * (workloadB env.draws size).getD (k * size + j) 0 := by
  rw [main_final_ok env size h]
  simp only [mainBody, List.foldl_append]
  obtain ⟨h1, t1⟩ := session_stage env size State.init
  generalize sessionStage.foldl (fun s1 st => effect env size st s1) State.init = s1 at h1 t1
  obtain ⟨gA, gB, gC, gG, gW⟩ := generator_host env size s1
  have t2 := generator_trace env size s1
  generalize generatorStage.foldl (fun s1 st => effect env size st s1) s1 = s2
    at gA gB gC gG gW t2
  obtain ⟨h3, t3⟩ := reference_stage env size s2
  generalize referenceStage.foldl (fun s1 st => effect env size st s1) s2 = s3 at h3 t3
  have t4 := accelerator_trace env size s3
  obtain ⟨aA, aB, aC, aG, aW⟩ := accelerator_host env size s3
  generalize acceleratorStage.foldl (fun s1 st => effect env size st s1) s3 = s4
    at t4 aA aB aC aG aW
  obtain ⟨h5, t5⟩ := report_stage env size s4
  generalize reportStage.foldl (fun s1 st => effect env size st s1) s4 = s5 at h5 t5
  have lC : s2.host.result_cpu.length = size * size := by
    rw [gC]; exact List.length_replicate _ _
  obtain ⟨nA, nB, nG, _, nW, nV⟩ := naive_spec size s2.host lC
  rw [← h3] at nA nB nG nW
  have eA : s3.host.A = workloadA env.draws size := nA.trans gA
  have eB : s3.host.B = workloadB env.draws size := nB.trans gB
  have eG : s3.host.result_gpu = List.replicate (size * size) 0 := nG.trans gG
  refine ⟨?_, ?_, ?_, ?_, ?_, ?_⟩
  · rw [t5, t4, t3, t2, t1, eA, eB, eG, workloadA_length, workloadB_length,
      List.length_replicate]
    rfl
  · rw [h5, aA, eA]
  · rw [h5, aB, eB]
  · rw [h5, aG, eA, eB, eG, List.length_replicate]
  · rw [h5, aW, nW, gW, h1, eA, eB, eG, workloadA_length, workloadB_length,
      List.length_replicate]
    rfl
  · intro i j hi hj
    rw [h5, aC, h3, nV _ (flat_lt hi hj), flat_div hj, flat_mod hj, gA, gB]


/-! ## Evaluating binary64 roundings -/

theorem roundHalfEven_below (x : ℚ) (h : Int.fract x < 1 / 2) : roundHalfEven x = ⌊x⌋ := by
  unfold roundHalfEven
  rw [if_pos h]

theorem roundHalfEven_above (x : ℚ) (h : 1 / 2 < Int.fract x) : roundHalfEven x = ⌊x⌋ + 1 := by
  unfold roundHalfEven
  rw [if_neg (not_lt.mpr (le_of_lt h)), if_pos h]

theorem roundHalfEven_tie (x : ℚ) (h : Int.fract x = 1 / 2) :
    roundHalfEven x = if ⌊x⌋ % 2 = 0 then ⌊x⌋ else ⌊x⌋ + 1 := by
  unfold roundHalfEven
  rw [if_neg (by rw [h]; exact lt_irrefl _), if_neg (by rw [h]; exact lt_irrefl _)]

/-- A value strictly within one half of the integer `m` rounds to `m`. -/
theorem roundHalfEven_near (y : ℚ) (m : ℤ) (h1 : (m : ℚ) - 1 / 2 < y) (h2 : y < m + 1 / 2) :
    roundHalfEven y = m := by
  by_cases hy : (m : ℚ) ≤ y
  · have hf : ⌊y⌋ = m := by
      rw [Int.floor_eq_iff]
      constructor <;> linarith
    have hr : Int.fract y < 1 / 2 := by
      rw [Int.fract, hf]
      linarith
    rw [roundHalfEven_below y hr, hf]
  · have hy1 : y < m := not_le.mp hy
    have hf : ⌊y⌋ = m - 1 := by
      rw [Int.floor_eq_iff]
      push_cast
      constructor <;> linarith
    have hr : 1 / 2 < Int.fract y := by
      rw [Int.fract, hf]
      push_cast
      linarith
    rw [roundHalfEven_above y hr, hf]
    omega

theorem log2_eq (x : ℚ) (e : ℤ) (hx : 0 < x) (h1 : (2 : ℚ) ^ e ≤ x) (h2 : x < (2 : ℚ) ^ (e + 1)) :
    Int.log 2 x = e := by
  have a1 := (@Int.zpow_le_iff_le_log ℚ _ _ 2 (by norm_num) e x hx).mp
    (by simpa using h1)
  have a2 := (@Int.lt_zpow_iff_log_lt ℚ _ _ 2 (by norm_num) (e + 1) x hx).mp
    (by simpa using h2)
  omega

/-- The binary64 rounding of a positive `x` with `2^e ≤ x < 2^(e+1)` whose
scaled value lies strictly within one half of the integer `m`. -/
theorem roundDouble_eval (x : ℚ) (e m : ℤ) (hx : 0 < x) (he : -1022 ≤ e)
    (h1 : (2 : ℚ) ^ e ≤ x) (h2 : x < (2 : ℚ) ^ (e + 1))
    (hm1 : (m : ℚ) - 1 / 2 < x / 2 ^ (e - 52)) (hm2 : x / 2 ^ (e - 52) < m + 1 / 2) :
    roundDouble x = m * 2 ^ (e - 52) := by
  have hu : ulpExponent x = e - 52 := by
    unfold ulpExponent
    rw [abs_of_pos hx, log2_eq x e hx h1 h2, max_eq_left he]
  unfold roundDouble
  rw [hu, roundHalfEven_near _ m hm1 hm2]

theorem rd_43 :
    roundDouble (43)
      = 43 := by
  rw [roundDouble_eval _ (5) 6051711999279104 (by norm_num) (by norm_num)
    (by norm_num) (by norm_num) (by norm_num) (by norm_num)]
  norm_num

theorem rd_2 :
    roundDouble (2)
      = 2 := by
  rw [roundDouble_eval _ (1) 4503599627370496 (by norm_num) (by norm_num)
    (by norm_num) (by norm_num) (by norm_num) (by norm_num)]
  norm_num

theorem rd_43_1000 :
    roundDouble (43 / 1000)
      = 3098476543630901 / 72057594037927936 := by
  rw [roundDouble_eval _ (-5) 6196953087261802 (by norm_num) (by norm_num)
    (by norm_num) (by norm_num) (by norm_num) (by norm_num)]
  norm_num

theorem rd_2_1000 :
    roundDouble (2 / 1000)
      = 1152921504606847 / 576460752303423488 := by
  rw [roundDouble_eval _ (-9) 4611686018427388 (by norm_num) (by norm_num)
    (by norm_num) (by norm_num) (by norm_num) (by norm_num)]
  norm_num

theorem rd_quot_43_2 :
    roundDouble (3098476543630901 / 72057594037927936 / (1152921504606847 / 576460752303423488))
      = 6051711999279103 / 281474976710656 := by
  rw [roundDouble_eval _ (4) 6051711999279103 (by norm_num) (by norm_num)
    (by norm_num) (by norm_num) (by norm_num) (by norm_num)]
  norm_num

theorem rd_2500 :
    roundDouble (2500)
      = 2500 := by
  rw [roundDouble_eval _ (11) 5497558138880000 (by norm_num) (by norm_num)
    (by norm_num) (by norm_num) (by norm_num) (by norm_num)]
  norm_num

theorem rd_500 :
    roundDouble (500)
      = 500 := by
  rw [roundDouble_eval _ (8) 8796093022208000 (by norm_num) (by norm_num)
    (by norm_num) (by norm_num) (by norm_num) (by norm_num)]
  norm_num

theorem rd_1000 :
    roundDouble (1000)
      = 1000 := by
  rw [roundDouble_eval _ (9) 8796093022208000 (by norm_num) (by norm_num)
    (by norm_num) (by norm_num) (by norm_num) (by norm_num)]
  norm_num

theorem rd_5_2 :
    roundDouble (2500 / 1000)
      = 5 / 2 := by
  rw [roundDouble_eval _ (1) 5629499534213120 (by norm_num) (by norm_num)
    (by norm_num) (by norm_num) (by norm_num) (by norm_num)]
  norm_num

theorem rd_1_2 :
    roundDouble (500 / 1000)
      = 1 / 2 := by
  rw [roundDouble_eval _ (-1) 4503599627370496 (by norm_num) (by norm_num)
    (by norm_num) (by norm_num) (by norm_num) (by norm_num)]
  norm_num

theorem rd_1 :
    roundDouble (1000 / 1000)
      = 1 := by
  rw [roundDouble_eval _ (0) 4503599627370496 (by norm_num) (by norm_num)
    (by norm_num) (by norm_num) (by norm_num) (by norm_num)]
  norm_num

theorem rd_5_2_1 :
    roundDouble (5 / 2 / 1)
      = 5 / 2 := by
  rw [roundDouble_eval _ (1) 5629499534213120 (by norm_num) (by norm_num)
    (by norm_num) (by norm_num) (by norm_num) (by norm_num)]
  norm_num

theorem rd_1_2_1 :
    roundDouble (1 / 2 / 1)
      = 1 / 2 := by
  rw [roundDouble_eval _ (-1) 4503599627370496 (by norm_num) (by norm_num)
    (by norm_num) (by norm_num) (by norm_num) (by norm_num)]
  norm_num

theorem quotient_43_2 : speedupQuotient 43 2 = 6051711999279103 / 281474976710656 := by
  simp only [speedupQuotient, fdiv, Int.cast_ofNat]
  rw [rd_43, rd_43_1000, rd_2, rd_2_1000, rd_quot_43_2]

theorem quotient_2500_1000 : speedupQuotient 2500 1000 = 5 / 2 := by
  simp only [speedupQuotient, fdiv, Int.cast_ofNat]
  rw [rd_2500, rd_5_2, rd_1000, rd_1, rd_5_2_1]

theorem quotient_500_1000 : speedupQuotient 500 1000 = 1 / 2 := by
  simp only [speedupQuotient, fdiv, Int.cast_ofNat]
  rw [rd_500, rd_1_2, rd_1000, rd_1, rd_1_2_1]

/-! ## Rounding of the reported speedup -/

theorem roundHalfEven_nonneg (y : ℚ) (hy : 0 ≤ y) : 0 ≤ roundHalfEven y := by
  have hf : 0 ≤ ⌊y⌋ := Int.floor_nonneg.mpr hy
  unfold roundHalfEven
  split_ifs <;> omega

theorem roundDouble_nonneg (x : ℚ) (hx : 0 ≤ x) : 0 ≤ roundDouble x := by
  have hp : (0 : ℚ) ≤ 2 ^ ulpExponent x := zpow_nonneg (by norm_num) _
  unfold roundDouble
  exact mul_nonneg (Int.cast_nonneg.mpr (roundHalfEven_nonneg _ (div_nonneg hx hp))) hp

theorem speedupQuotient_nonneg (cpu_us gpu_us : Int) (hc : 0 < cpu_us) (hg : 0 < gpu_us) :
    0 ≤ speedupQuotient cpu_us gpu_us := by
  have h1 : (0 : ℚ) ≤ cpu_us := by exact_mod_cast le_of_lt hc
  have h2 : (0 : ℚ) ≤ gpu_us := by exact_mod_cast le_of_lt hg
  unfold speedupQuotient fdiv
  apply roundDouble_nonneg
  apply div_nonneg
  · exact roundDouble_nonneg _ (div_nonneg (roundDouble_nonneg _ h1) (by norm_num))
  · exact roundDouble_nonneg _ (div_nonneg (roundDouble_nonneg _ h2) (by norm_num))

theorem round_below (x : ℚ) (h : Int.fract x < 1 / 2) : round x = ⌊x⌋ := by
  rw [round_eq, Int.floor_eq_iff]
  have h1 := Int.floor_add_fract x
  have h2 := Int.fract_nonneg x
  constructor <;> linarith

theorem round_not_below (x : ℚ) (h : 1 / 2 ≤ Int.fract x) : round x = ⌊x⌋ + 1 := by
  rw [round_eq, Int.floor_eq_iff]
  have h1 := Int.floor_add_fract x
  have h2 := Int.fract_lt_one x
  push_cast
  constructor <;> linarith

theorem fixed0_tie (x : ℚ) (h : Int.fract x = 1 / 2) :
    fixed0 x = if ⌊x⌋ % 2 = 0 then ⌊x⌋ else ⌊x⌋ + 1 :=
  roundHalfEven_tie x h

theorem fixed0_eq_round_iff (x : ℚ) :
    fixed0 x = round x ↔ ¬ (Int.fract x = 1 / 2 ∧ ⌊x⌋ % 2 = 0) := by
  rcases lt_trichotomy (Int.fract x) (1 / 2) with h | h | h
  · rw [fixed0, roundHalfEven_below x h, round_below x h]
    exact ⟨fun _ hc => absurd hc.1 (ne_of_lt h), fun _ => rfl⟩
  · rw [fixed0_tie x h, round_not_below x (le_of_eq h.symm)]
    by_cases he : ⌊x⌋ % 2 = 0
    · rw [if_pos he]
      exact ⟨fun hc => by omega, fun hc => absurd ⟨h, he⟩ hc⟩
    · rw [if_neg he]
      exact ⟨fun _ hc => he hc.2, fun _ => rfl⟩
  · rw [fixed0, roundHalfEven_above x h, round_not_below x (le_of_lt h)]
    exact ⟨fun _ hc => absurd hc.1 (ne_of_gt h), fun _ => rfl⟩

/-- The three lines on standard output after a run in which nothing is
raised. -/
theorem cout_ok (env : Env) (size : Nat) (h : (main env size).raised = none) :
    (main env size).cout =
      [OutLine.cpuTime size (time_difference env.periodNs (env.clock 0) (env.clock 1)),
       OutLine.gpuTime size (time_difference env.periodNs (env.clock 2) (env.clock 3)),
       OutLine.speedup
         (speedupShown (duration_cast_us env.periodNs (env.clock 1 - env.clock 0))
           (duration_cast_us env.periodNs (env.clock 3 - env.clock 2)))] := by
  rw [main_cout, main_final_ok env size h]
  simp only [speedupShown, speedupQuotient]
  simp [mainBody, sessionStage, generatorStage, referenceStage, acceleratorStage, reportStage,
    effect, State.init]
  rfl

theorem quiet_ok (size : Nat) : (main Env.quiet size).raised = none := by
  rw [main_raised_none]
  decide

theorem halfway_ok (size : Nat) : (main Env.halfway size).raised = none := by
  rw [main_raised_none]
  decide

/-- Counterexample to C5 as stated: with 2500 µs on the CPU and 1000 µs on
the GPU the `double` quotient is exactly 2.5; line 110 shows `2` while
`round(2.5)` is `3`.  Likewise 500 µs / 1000 µs shows `0` while `round(0.5)`
is `1`. -/
theorem speedup_tie_counterexample :
    (main Env.halfway 1).cout
      = [OutLine.cpuTime 1 (5 / 2), OutLine.gpuTime 1 1, OutLine.speedup 2] ∧
    speedupQuotient 2500 1000 = 5 / 2 ∧
    speedupShown 2500 1000 = 2 ∧ round (speedupQuotient 2500 1000) = 3 ∧
    speedupShown 500 1000 = 0 ∧ round (speedupQuotient 500 1000) = 1 := by
  have q1 := quotient_2500_1000
  have q2 := quotient_500_1000
  have f1 : ⌊(5 / 2 : ℚ)⌋ = 2 := by rw [Int.floor_eq_iff]; norm_num
  have f2 : ⌊(1 / 2 : ℚ)⌋ = 0 := by rw [Int.floor_eq_iff]; norm_num
  have r1 : Int.fract (5 / 2 : ℚ) = 1 / 2 := by rw [Int.fract, f1]; norm_num
  have r2 : Int.fract (1 / 2 : ℚ) = 1 / 2 := by rw [Int.fract, f2]; norm_num
  have s1 : speedupShown 2500 1000 = 2 := by
    rw [speedupShown, q1, fixed0_tie _ r1, f1]; rfl
  have s2 : speedupShown 500 1000 = 0 := by
    rw [speedupShown, q2, fixed0_tie _ r2, f2]; rfl
  refine ⟨?_, q1, s1, ?_, s2, ?_⟩
  · rw [cout_ok Env.halfway 1 (halfway_ok 1)]
    have d1 : duration_cast_us Env.halfway.periodNs (Env.halfway.clock 1 - Env.halfway.clock 0)
        = 2500 := by decide
    have d2 : duration_cast_us Env.halfway.periodNs (Env.halfway.clock 3 - Env.halfway.clock 2)
        = 1000 := by decide
    have t1 : time_difference Env.halfway.periodNs (Env.halfway.clock 0) (Env.halfway.clock 1)
        = 5 / 2 := by
      rw [time_difference, d1]
      simp only [fdiv, Int.cast_ofNat]
      rw [rd_2500, rd_5_2]
    have t2 : time_difference Env.halfway.periodNs (Env.halfway.clock 2) (Env.halfway.clock 3)
        = 1 := by
      rw [time_difference, d2]
      simp only [fdiv, Int.cast_ofNat]
      rw [rd_1000, rd_1]
    rw [d1, d2, s1, t1, t2]
  · rw [q1, round_not_below _ (le_of_eq r1.symm), f1]; rfl
  · rw [q2, round_not_below _ (le_of_eq r2.symm), f2]; rfl

/-- C5, amended. For positive elapsed times the number shown by line 110 is
the `double` quotient `cpu_time_ms / gpu_time_ms` rounded to the nearest
integer, a tie going to the even neighbour: it equals
`round(cpu_time_ms / gpu_time_ms)` exactly when the quotient is not halfway
above an even integer, and in particular whenever it is not exactly halfway
between two integers.  The same holds of every value `x` printed under
`std::fixed << std::setprecision(0)`. -/
theorem speedup_rounding (cpu_us gpu_us : Int) (hc : 0 < cpu_us) (hg : 0 < gpu_us) :
    (∀ env size, (main env size).raised = none →
      duration_cast_us env.periodNs (env.clock 1 - env.clock 0) = cpu_us →
      duration_cast_us env.periodNs (env.clock 3 - env.clock 2) = gpu_us →
      (main env size).cout.getLast? = some (OutLine.speedup (speedupShown cpu_us gpu_us))) ∧
    (Int.fract (speedupQuotient cpu_us gpu_us) ≠ 1 / 2 →
      speedupShown cpu_us gpu_us = round (speedupQuotient cpu_us gpu_us)) ∧
    (Int.fract (speedupQuotient cpu_us gpu_us) = 1 / 2 →
      speedupShown cpu_us gpu_us
        = if ⌊speedupQuotient cpu_us gpu_us⌋ % 2 = 0 then ⌊speedupQuotient cpu_us gpu_us⌋
          else ⌊speedupQuotient cpu_us gpu_us⌋ + 1) ∧
    (speedupShown cpu_us gpu_us = round (speedupQuotient cpu_us gpu_us) ↔
      ¬ (Int.fract (speedupQuotient cpu_us gpu_us) = 1 / 2 ∧
         ⌊speedupQuotient cpu_us gpu_us⌋ % 2 = 0)) ∧
    (∀ x : ℚ, fixed0 x = round x ↔ ¬ (Int.fract x = 1 / 2 ∧ ⌊x⌋ % 2 = 0)) ∧
    0 ≤ speedupShown cpu_us gpu_us := by
  refine ⟨?_, ?_, ?_, ?_, fixed0_eq_round_iff,
    roundHalfEven_nonneg _ (speedupQuotient_nonneg cpu_us gpu_us hc hg)⟩
  · intro env size hok h1 h2
    rw [cout_ok env size hok, h1, h2]
    rfl
  · intro hne
    exact (fixed0_eq_round_iff _).mpr (fun h => hne h.1)
  · intro he
    exact fixed0_tie _ he
  · exact fixed0_eq_round_iff _

/-- Witness of the amended C5: 43 µs against 2 µs.  The `double` quotient of
`0.043` by `0.002` is `21.5 - 2⁻⁴⁸`, not `21.5`; it is not a tie, line 110
shows `21`, and `21` is its `round`. -/
theorem speedup_rounding_witness :
    speedupQuotient 43 2 = 6051711999279103 / 281474976710656 ∧
    speedupShown 43 2 = 21 ∧
    speedupShown 43 2 = round (speedupQuotient 43 2) ∧
    (main Env.inexact 1).cout.getLast? = some (OutLine.speedup 21) := by
  have q := quotient_43_2
  have hs : speedupShown 43 2 = 21 := by
    rw [speedupShown, q, fixed0]
    exact roundHalfEven_near _ 21 (by norm_num) (by norm_num)
  have hf : ⌊(6051711999279103 / 281474976710656 : ℚ)⌋ = 21 := by
    rw [Int.floor_eq_iff]; norm_num
  have hne : Int.fract (speedupQuotient 43 2) ≠ 1 / 2 := by
    rw [q, Int.fract, hf]; norm_num
  have h := speedup_rounding 43 2 (by decide) (by decide)
  refine ⟨q, hs, h.2.1 hne, ?_⟩
  have hp := h.1 Env.inexact 1 (by decide) (by decide) (by decide)
  rw [hs] at hp
  exact hp


/-! ## Order of the device operations and the timing window -/

/-- C9. On a run in which nothing is raised the operations issued to the
device are, in this order: the three buffers of `size*size` elements (`A`
and `B` read-only, the result read-write); the copies of host `A`, host `B`
and the zeroed result into them; one launch of `matmul` over `size*size`
work-items with arguments `(buf_A, buf_B, buf_result_gpu, size)`;
`cl::finish`; the copies of the three buffers back to the host. -/
theorem device_operations_order (env : Env) (size : Nat)
    (h : (main env size).raised = none) :
    deviceOps (main env size).final.trace
      = [Event.createBuffer Buf.buf_A (size * size) true,
         Event.createBuffer Buf.buf_B (size * size) true,
         Event.createBuffer Buf.buf_result_gpu (size * size) false,
         Event.copyToDevice Mat.A Buf.buf_A (workloadA env.draws size),
         Event.copyToDevice Mat.B Buf.buf_B (workloadB env.draws size),
         Event.copyToDevice Mat.result_gpu Buf.buf_result_gpu (List.replicate (size * size) 0),
         Event.launch "matmul" (size * size) [Buf.buf_A, Buf.buf_B, Buf.buf_result_gpu] size,
         Event.finish,
         Event.copyToHost Buf.buf_A Mat.A,
         Event.copyToHost Buf.buf_B Mat.B,
         Event.copyToHost Buf.buf_result_gpu Mat.result_gpu] := by
  rw [(final_ok env size h).1]
  rfl

/-- Witness of C9: the run of `Env.quiet` on `2×2` matrices. -/
theorem device_operations_order_witness :
    (main Env.quiet 2).raised = none ∧
    deviceOps (main Env.quiet 2).final.trace
      = [Event.createBuffer Buf.buf_A (2 * 2) true,
         Event.createBuffer Buf.buf_B (2 * 2) true,
         Event.createBuffer Buf.buf_result_gpu (2 * 2) false,
         Event.copyToDevice Mat.A Buf.buf_A (workloadA Env.quiet.draws 2),
         Event.copyToDevice Mat.B Buf.buf_B (workloadB Env.quiet.draws 2),
         Event.copyToDevice Mat.result_gpu Buf.buf_result_gpu (List.replicate (2 * 2) 0),
         Event.launch "matmul" (2 * 2) [Buf.buf_A, Buf.buf_B, Buf.buf_result_gpu] 2,
         Event.finish,
         Event.copyToHost Buf.buf_A Mat.A,
         Event.copyToHost Buf.buf_B Mat.B,
         Event.copyToHost Buf.buf_result_gpu Mat.result_gpu] :=
  ⟨by decide, device_operations_order Env.quiet 2 (by decide)⟩

/-- Counterexample to C6 as stated: in the run of `Env.quiet` on `2×2`
matrices the three buffers are created before `time_gpu0` is sampled; the
call that follows the sample is the first host-to-device copy. -/
theorem timing_window_counterexample :
    (main Env.quiet 2).raised = none ∧
    ((main Env.quiet 2).final.trace.drop 8).take 4
      = [Event.createBuffer Buf.buf_A 4 true,
         Event.createBuffer Buf.buf_B 4 true,
         Event.createBuffer Buf.buf_result_gpu 4 false,
         Event.now Sample.time_gpu0] ∧
    (main Env.quiet 2).final.trace.get? 12
      = some (Event.copyToDevice Mat.A Buf.buf_A (workloadA Env.quiet.draws 2)) := by
  refine ⟨quiet_ok 2, ?_, ?_⟩
  · rw [(final_ok Env.quiet 2 (quiet_ok 2)).1]
    rfl
  · rw [(final_ok Env.quiet 2 (quiet_ok 2)).1]
    rfl

/-- C6, amended. On a run in which nothing is raised, `time_gpu0` is sampled
immediately after the three device buffers are created and immediately
before the first host-to-device copy, and `time_gpu1` immediately after the
last copy-back: the three copies in, the kernel launch, the finish barrier
and the three copy-backs lie inside the window; the buffer creation and the
program build lie before it. -/
theorem timing_window (env : Env) (size : Nat) (h : (main env size).raised = none) :
    (main env size).final.trace
      = ([Event.getDefaultQueue, Event.getDevice, Event.openSource, Event.createProgram,
          Event.build, Event.bindKernel "matmul",
          Event.now Sample.time_cpu0, Event.now Sample.time_cpu1]
        ++ [Event.createBuffer Buf.buf_A (size * size) true,
            Event.createBuffer Buf.buf_B (size * size) true,
            Event.createBuffer Buf.buf_result_gpu (size * size) false])
        ++ [Event.now Sample.time_gpu0]
        ++ [Event.copyToDevice Mat.A Buf.buf_A (workloadA env.draws size),
            Event.copyToDevice Mat.B Buf.buf_B (workloadB env.draws size),
            Event.copyToDevice Mat.result_gpu Buf.buf_result_gpu
              (List.replicate (size * size) 0),
            Event.launch "matmul" (size * size) [Buf.buf_A, Buf.buf_B, Buf.buf_result_gpu]
              size,
            Event.finish,
            Event.copyToHost Buf.buf_A Mat.A,
            Event.copyToHost Buf.buf_B Mat.B,
            Event.copyToHost Buf.buf_result_gpu Mat.result_gpu]
        ++ [Event.now Sample.time_gpu1] := by
  rw [(final_ok env size h).1]
  rfl

/-- Witness of the amended C6: the run of `Env.quiet` on `1×1` matrices; the
sample `time_gpu0` is the twelfth call of the trace and `time_gpu1` the
last. -/
theorem timing_window_witness :
    (main Env.quiet 1).raised = none ∧
    (main Env.quiet 1).final.trace.get? 11 = some (Event.now Sample.time_gpu0) ∧
    (main Env.quiet 1).final.trace.getLast? = some (Event.now Sample.time_gpu1) :=
  ⟨by decide,
   by rw [timing_window Env.quiet 1 (by decide)]; rfl,
   by rw [timing_window Env.quiet 1 (by decide)]; rfl⟩


/-! ## Which stage writes which host vector -/

theorem writesAll_nodup (m : Mat) (n : Nat) : (writesAll m n).Nodup := by
  apply List.Nodup.map _ (List.nodup_range n)
  intro a b hab
  exact (Prod.mk.inj hab).2

theorem writesAll_mem (m : Mat) (n p : Nat) (hp : p < n) : (m, p) ∈ writesAll m n :=
  List.mem_map.mpr ⟨p, List.mem_range.mpr hp, rfl⟩

/-- Counterexample to C8 as stated: the write log of the run of `Env.quiet`
on `1×1` matrices.  After the generator has populated `A` and `B` (entries 1
and 2) and the reference loop has written `result_cpu` (entry 5), the
copy-backs of the accelerator stage write `A` and `B` again (entries 6 and
7) before `result_gpu` (entry 8). -/
theorem write_log_counterexample :
    (main Env.quiet 1).raised = none ∧
    (main Env.quiet 1).final.host.writes
      = [(Mat.A, 0), (Mat.B, 0), (Mat.result_cpu, 0), (Mat.result_gpu, 0),
         (Mat.result_cpu, 0), (Mat.A, 0), (Mat.B, 0), (Mat.result_gpu, 0)] := by
  refine ⟨quiet_ok 1, ?_⟩
  rw [(final_ok Env.quiet 1 (quiet_ok 1)).2.2.2.2.1]
  rfl

/-- C8, amended. From any state whose `result_cpu` has `size*size` elements:
the reference stage writes only `result_cpu`, each of its `size*size`
elements exactly once (the log it adds has no duplicate and contains every
index), and leaves `A`, `B` and `result_gpu` unchanged; the
accelerator stage writes every element of `A`, `B` and `result_gpu` once
(the copy-backs of lines 96–98), leaves `result_cpu` unwritten, and leaves
in `A` and `B` the values they held (the buffers hold their copies). -/
theorem stage_writes (env : Env) (size : Nat) (s : State)
    (hC : s.host.result_cpu.length = size * size) :
    ((referenceStage.foldl (fun s1 st => effect env size st s1) s).host.writes
        = s.host.writes ++ writesAll Mat.result_cpu (size * size) ∧
     (writesAll Mat.result_cpu (size * size)).Nodup ∧
     (∀ p, p < size * size → (Mat.result_cpu, p) ∈ writesAll Mat.result_cpu (size * size)) ∧
     (referenceStage.foldl (fun s1 st => effect env size st s1) s).host.A = s.host.A ∧
     (referenceStage.foldl (fun s1 st => effect env size st s1) s).host.B = s.host.B ∧
     (referenceStage.foldl (fun s1 st => effect env size st s1) s).host.result_gpu
        = s.host.result_gpu) ∧
    ((acceleratorStage.foldl (fun s1 st => effect env size st s1) s).host.writes
        = s.host.writes ++ writesAll Mat.A s.host.A.length ++ writesAll Mat.B s.host.B.length
          ++ writesAll Mat.result_gpu s.host.result_gpu.length ∧
     (acceleratorStage.foldl (fun s1 st => effect env size st s1) s).host.result_cpu
        = s.host.result_cpu ∧
     (acceleratorStage.foldl (fun s1 st => effect env size st s1) s).host.A = s.host.A ∧
     (acceleratorStage.foldl (fun s1 st => effect env size st s1) s).host.B = s.host.B) := by
  obtain ⟨h3, _⟩ := reference_stage env size s
  obtain ⟨nA, nB, nG, _, nW, _⟩ := naive_spec size s.host hC
  obtain ⟨aA, aB, aC, _, aW⟩ := accelerator_host env size s
  refine ⟨⟨?_, writesAll_nodup _ _,
    fun p hp => writesAll_mem Mat.result_cpu (size * size) p hp, ?_, ?_, ?_⟩, aW, aC, aA, aB⟩
  · rw [h3, nW]; rfl
  · rw [h3, nA]
  · rw [h3, nB]
  · rw [h3, nG]

/-- Witness of the amended C8 on zeroed `1×1` vectors: the reference stage
logs one write of `result_cpu`, the accelerator stage one write each of `A`,
`B` and `result_gpu`. -/
theorem stage_writes_witness :
    (referenceStage.foldl (fun s1 st => effect Env.quiet 1 st s1) State.oneCell).host.writes
      = [(Mat.result_cpu, 0)] ∧
    (acceleratorStage.foldl (fun s1 st => effect Env.quiet 1 st s1) State.oneCell).host.writes
      = [(Mat.A, 0), (Mat.B, 0), (Mat.result_gpu, 0)] :=
  ⟨(stage_writes Env.quiet 1 State.oneCell rfl).1.1,
   (stage_writes Env.quiet 1 State.oneCell rfl).2.1⟩

end Matmul
